import Mathlib

/-
Verification of the yang2tosca translator (pyang plug-in converting YANG
schema definitions to TOSCA data types).

The development is a shallow embedding of src/yang2tosca/tosca.py and
src/yang2tosca/config/config.py.  A YANG statement tree (pyang's validated
statement objects) is modelled by the inductive type `Stmt`; the resolved
cross references that pyang attaches (`i_grouping` on a `uses` statement,
`i_target_node` on an `augment` statement) are modelled as fields holding a
snapshot of the resolved node (the reference graph is acyclic for validated
modules, so a subtree snapshot is faithful).

Output produced through `fd.write(...)` is modelled as a list of strings,
one entry per `write` call (a "chunk"); text printed to the console with
`print(...)` is collected in a second list.  Every emit function returns the
pair `Res` of those two lists.
-/

/-- A YANG statement as seen by the translator: keyword, argument, ordered
substatements, and the two resolved cross references supplied by pyang. -/
inductive Stmt : Type where
  | mk (keyword : String) (arg : String) (substmts : List Stmt)
       (iGrouping : Option Stmt) (iTarget : Option String) : Stmt

def Stmt.keyword : Stmt → String
  | .mk k _ _ _ _ => k

def Stmt.arg : Stmt → String
  | .mk _ a _ _ _ => a

def Stmt.substmts : Stmt → List Stmt
  | .mk _ _ s _ _ => s

def Stmt.iGrouping : Stmt → Option Stmt
  | .mk _ _ _ g _ => g

def Stmt.iTarget : Stmt → Option String
  | .mk _ _ _ _ t => t

/-- pyang's `stmt.search(kw)`: all substatements with the given keyword. -/
def Stmt.search (stmt : Stmt) (kw : String) : List Stmt :=
  stmt.substmts.filter (fun s => s.keyword == kw)

/-- pyang's `stmt.search_one(kw)`: the first substatement with the given
keyword, if any. -/
def Stmt.search_one (stmt : Stmt) (kw : String) : Option Stmt :=
  (stmt.search kw).head?

/-- The translator context: the type map loaded from the configuration file,
the local namespace prefix recorded by `emit_prefix` (set once, at module
level, before the data-type section is emitted; modelled as an immutable
field), the `--camel-case` option, and the module registry behind
`ctx.get_module`. -/
structure Ctx where
  type_map : List (String × String)
  localPfx : Option String
  camelCase : Bool
  modules : List (String × Stmt)

/-- pyang's `ctx.get_module(name)` as a registry lookup. -/
def Ctx.get_module (ctx : Ctx) (name : String) : Option Stmt :=
  ctx.modules.lookup name

/-- Result of an emit function: the chunks written to the output file (one
entry per `fd.write` call) and the messages printed to the console. -/
abbrev Res := List String × List String

/-- A single `fd.write` call. -/
def wr (s : String) : Res := ([s], [])

/-- A single `print` call. -/
def pmsg (m : String) : Res := ([], [m])

/-- Sequential composition of emission results. -/
def rcat : List Res → Res :=
  List.foldr (fun a b => (a.1 ++ b.1, a.2 ++ b.2)) ([], [])

/-- Conditional emission for the ubiquitous `if substatement: emit(...)`
pattern of the source. -/
def ropt (o : Option Stmt) (f : Stmt → Res) : Res :=
  match o with
  | some s => f s
  | none => ([], [])


-- TOSCA namespace for built-in IETF types (constants of the source).
def IETF_NAMESPACE : String := "org.ietf:1.0"
def IETF_NS_PFX : String := "inet"

/-- Models pyang's `statements.mk_path_str(stmt, True)` (external
schema-processing library): the structural path of a node.  Our statement
snapshots carry no parent pointers, so the path is abstracted as the node's
own argument behind a slash; the claims only inspect whole warning messages
for presence and multiplicity, never path contents. -/
def mk_path_str (stmt : Stmt) : String := "/" ++ stmt.arg

/-- Source `check_substmts`: print one "not handled" warning per
substatement whose keyword is not in the handled list. -/
def check_substmts (stmt : Stmt) (handled : List String) : Res :=
  ([], stmt.substmts.filterMap (fun sub =>
    if handled.contains sub.keyword then none
    else if stmt.keyword == "module" || stmt.keyword == "submodule" then
      some ("/: " ++ sub.keyword ++ "(" ++ sub.arg ++ ") not handled")
    else
      some (mk_path_str stmt ++ ": " ++ sub.keyword ++ "(" ++ sub.arg ++ ") not handled")))

/-
Models of the Python string primitives the translator relies on.
-/

/-- Python's notion of whitespace (ASCII subset) as used by `str.strip`,
`str.split`, `textwrap` and the `re` module's `\s`. -/
def isPySpace (c : Char) : Bool :=
  c == ' ' || c == '\t' || c == '\n' || c == '\r' || c == '\x0b' || c == '\x0c'

/-- Helper for `pySplitlines`: split a character list at newline characters,
keeping every segment (including a final empty one). -/
def splitNlAux : List Char → List Char → List (List Char)
  | acc, [] => [acc.reverse]
  | acc, c :: rest =>
    if c == '\n' then acc.reverse :: splitNlAux [] rest
    else splitNlAux (c :: acc) rest

/-- Drop a final empty segment, as Python's `splitlines` produces no entry
for a trailing line terminator. -/
def dropTrailEmpty : List (List Char) → List (List Char)
  | [] => []
  | [l] => if l.isEmpty then [] else [l]
  | l :: rest => l :: dropTrailEmpty rest

/-- Models Python's `str.splitlines()` (restricted to the LF terminator,
the only one occurring in YANG argument text). -/
def pySplitlines (s : String) : List String :=
  if s.data.isEmpty then []
  else (dropTrailEmpty (splitNlAux [] s.data)).map (fun l => String.mk l)

/-- Helper for `pySplitChar`. -/
def splitCharAux (sep : Char) : List Char → List Char → List (List Char)
  | acc, [] => [acc.reverse]
  | acc, c :: rest =>
    if c == sep then acc.reverse :: splitCharAux sep [] rest
    else splitCharAux sep (c :: acc) rest

/-- Models Python's `str.split(sep)` for a one-character separator. -/
def pySplitChar (sep : Char) (s : String) : List String :=
  (splitCharAux sep [] s.data).map (fun l => String.mk l)

/-- Models Python's `str.lstrip()` (default whitespace). -/
def pyLstrip (s : String) : String :=
  String.mk (s.data.dropWhile (fun c => isPySpace c))

/-- Models Python's `str.strip()` (default whitespace). -/
def pyStrip (s : String) : String :=
  String.mk (((s.data.dropWhile (fun c => isPySpace c)).reverse.dropWhile
    (fun c => isPySpace c)).reverse)

/-- The wrap width used by `textwrap.wrap`'s default configuration. -/
def textwrap_width : Nat := 70

/-- Helper for the `textwrap.wrap` model: split text into whitespace-free
words (whitespace is collapsed, as with `replace_whitespace` plus
chunk splitting and `drop_whitespace`). -/
def splitWordsAux : List Char → List Char → List (List Char)
  | acc, [] => if acc.isEmpty then [] else [acc.reverse]
  | acc, c :: rest =>
    if isPySpace c then
      (if acc.isEmpty then splitWordsAux [] rest
       else acc.reverse :: splitWordsAux [] rest)
    else splitWordsAux (c :: acc) rest

/-- Helper for the `textwrap.wrap` model: chop an overlong word into
pieces of at most the wrap width (`break_long_words`). -/
def chopAux : Nat → List Char → List (List Char)
  | 0, w => if w.isEmpty then [] else [w]
  | n + 1, w =>
    if w.length ≤ textwrap_width then (if w.isEmpty then [] else [w])
    else w.take textwrap_width :: chopAux n (w.drop textwrap_width)

def chop (w : List Char) : List (List Char) := chopAux w.length w

/-- Helper for the `textwrap.wrap` model: greedy line filling at the wrap
width, separating words in a line by single spaces. -/
def fillAux : List (List Char) → List Char → List (List Char)
  | [], cur => if cur.isEmpty then [] else [cur]
  | w :: ws, cur =>
    if cur.isEmpty then fillAux ws w
    else if cur.length + 1 + w.length ≤ textwrap_width then
      fillAux ws (cur ++ ' ' :: w)
    else cur :: fillAux ws w

/-- Models Python's `textwrap.wrap(text)` with the default width of 70:
whitespace is collapsed, words are greedily packed into lines, overlong
words are broken at the width. -/
def textwrap_wrap (s : String) : List String :=
  (fillAux ((splitWordsAux [] s.data).foldr (fun w acc => chop w ++ acc) []) []).map
    (fun l => String.mk l)

/-- Source `wrap_text`: if the text already contains interior newlines it is
kept as those lines, otherwise it is wrapped at width 70. -/
def wrap_text (text_string : String) : List String :=
  let lines := pySplitlines text_string
  if lines.length > 1 then lines else textwrap_wrap text_string

/-- Models the `stringcase.camelcase` library call used for the
`--camel-case` option: lower the first character and uppercase a letter
following a separator. -/
def stringcase_camelcase (s : String) : String :=
  match s.data with
  | [] => ""
  | c :: rest =>
    String.mk (c.toLower ::
      (camelAux rest))
where
  camelAux : List Char → List Char
    | [] => []
    | c :: rest =>
      if c == '_' || c == '-' || c == '.' || c == ' ' then
        match rest with
        | [] => []
        | d :: rest2 => d.toUpper :: camelAux rest2
      else c :: camelAux rest

/-- The name under which a property or attribute is emitted, honouring the
`--camel-case` option. -/
def prop_name (ctx : Ctx) (s : String) : String :=
  if ctx.camelCase then stringcase_camelcase s else s

/-
Executable size measure on statement trees, used as recursion fuel for the
functions of the source that recurse through substatement lists or through
resolved grouping references.  For every concrete input the fuel strictly
exceeds the recursion depth of the corresponding Python call tree, so the
out-of-fuel branches below are never taken on the inputs of any theorem.
-/

mutual
def stmtSize : Stmt → Nat
  | .mk _ _ subs g _ =>
    1 + stmtSizeList subs + (match g with | some s => 1 + stmtSize s | none => 0)
def stmtSizeList : List Stmt → Nat
  | [] => 0
  | s :: rest => stmtSize s + stmtSizeList rest
end

/-
Models of the Python built-in conversions used by `must_escape`.
-/

/-- Valid digit run for Python's numeric literals: digits with single
underscores strictly between digits. -/
def digitsUAux : List Char → Bool
  | [] => true
  | '_' :: c :: rest => c.isDigit && digitsUAux rest
  | '_' :: [] => false
  | c :: rest => c.isDigit && digitsUAux rest

def digitsU : List Char → Bool
  | [] => false
  | c :: rest => c.isDigit && digitsUAux rest

/-- Models Python's `int(s)` succeeding: optional surrounding whitespace,
optional sign, then a non-empty digit run (underscore separators allowed). -/
def pyIntOk (s : String) : Bool :=
  match (pyStrip s).data with
  | [] => false
  | c :: rest =>
    if c == '+' || c == '-' then digitsU rest else digitsU (c :: rest)

/-- Maximal run of digit or underscore characters. -/
def runSplit (cs : List Char) : List Char × List Char :=
  cs.span (fun c => c.isDigit || c == '_')

/-- Exponent part of a Python float literal (or the end of the string). -/
def expOk : List Char → Bool
  | [] => true
  | c :: rest =>
    (c == 'e' || c == 'E') &&
      (let body := match rest with
        | s :: r2 => if s == '+' || s == '-' then r2 else rest
        | [] => rest
       let (ds, r3) := runSplit body
       digitsU ds && r3.isEmpty)

/-- Decimal part of a Python float literal: `digits [. digits?] exp?`,
`digits . digits? exp?` or `. digits exp?`. -/
def pyFloatBody (cs : List Char) : Bool :=
  let (ip, r1) := runSplit cs
  if ip.isEmpty then
    match r1 with
    | '.' :: r2 =>
      let (fp, r3) := runSplit r2
      digitsU fp && expOk r3
    | _ => false
  else
    digitsU ip &&
      (match r1 with
       | '.' :: r2 =>
         let (fp, r3) := runSplit r2
         if fp.isEmpty then expOk r3 else digitsU fp && expOk r3
       | _ => expOk r1)

/-- Models Python's `float(s)` succeeding: optional whitespace and sign, then
either a (case-insensitive) infinity/nan keyword or a decimal literal. -/
def pyFloatOk (s : String) : Bool :=
  match (pyStrip s).data with
  | [] => false
  | c :: rest =>
    let body := if c == '+' || c == '-' then rest else c :: rest
    let low := String.mk (body.map Char.toLower)
    low == "inf" || low == "infinity" || low == "nan" || pyFloatBody body

/-
Model of the `timestamp_regexp` of the source (copied there from the ruamel
package): anchored match of `yyyy-m(m)?-d(d)?` with an optional time of day
and offset.  Python's `$` also matches just before a single trailing
newline, hence `tsEnd`.
-/

def tsEnd : List Char → Bool
  | [] => true
  | ['\n'] => true
  | _ => false

/-- Exactly `n` leading digits. -/
def tsTakeDigits : Nat → List Char → Option (List Char)
  | 0, cs => some cs
  | _ + 1, [] => none
  | n + 1, c :: cs => if c.isDigit then tsTakeDigits n cs else none

/-- A maximal run of one or two digits (the regex's greedy `[0-9][0-9]?`
followed by a non-digit, under which maximal-run parsing is equivalent). -/
def tsDigits12 (cs : List Char) : Option (List Char) :=
  let (ds, rest) := cs.span (·.isDigit)
  if ds.length == 1 || ds.length == 2 then some rest else none

/-- A maximal run of exactly two digits. -/
def tsDigits2 (cs : List Char) : Option (List Char) :=
  let (ds, rest) := cs.span (·.isDigit)
  if ds.length == 2 then some rest else none

/-- Time zone suffix: optional blanks, then `Z` or a signed offset. -/
def tsTz (cs : List Char) : Bool :=
  let cs := cs.dropWhile (fun c => c == ' ' || c == '\t')
  match cs with
  | 'Z' :: rest => tsEnd rest
  | c :: rest =>
    (c == '+' || c == '-') &&
      (match tsDigits12 rest with
       | none => false
       | some r2 =>
         match r2 with
         | ':' :: r3 => (match tsDigits2 r3 with
           | some r4 => tsEnd r4
           | none => false)
         | _ => tsEnd r2)
  | [] => false

/-- Time-of-day part after the date: separator, `h(h)?:mm:ss`, optional
fraction, optional time zone. -/
def tsTime (cs : List Char) : Bool :=
  let sep : Option (List Char) :=
    match cs with
    | 'T' :: rest => some rest
    | 't' :: rest => some rest
    | c :: _ =>
      if c == ' ' || c == '\t' then
        some (cs.dropWhile (fun c => c == ' ' || c == '\t'))
      else none
    | [] => none
  match sep with
  | none => false
  | some r1 =>
    match tsDigits12 r1 with
    | none => false
    | some r2 =>
      match r2 with
      | ':' :: r3 =>
        match tsDigits2 r3 with
        | none => false
        | some r4 =>
          match r4 with
          | ':' :: r5 =>
            match tsDigits2 r5 with
            | none => false
            | some r6 =>
              let r7 := match r6 with
                | '.' :: r7 => r7.dropWhile (·.isDigit)
                | _ => r6
              tsEnd r7 || tsTz r7
          | _ => false
      | _ => false

/-- Models `timestamp_regexp.match(s)` succeeding. -/
def timestampMatch (s : String) : Bool :=
  match tsTakeDigits 4 s.data with
  | none => false
  | some r1 =>
    match r1 with
    | '-' :: r2 =>
      match tsDigits12 r2 with
      | none => false
      | some r3 =>
        match r3 with
        | '-' :: r4 =>
          match tsDigits12 r4 with
          | none => false
          | some r5 => tsEnd r5 || tsTime r5
        | _ => false
    | _ => false

/-- Source `must_escape`: a literal must be quoted when a YAML parser would
read it as an integer, a float, a boolean, a null, or a timestamp.  The
source tries `int` twice (once for "long"); the redundancy is kept. -/
def must_escape (s : String) : Bool :=
  if pyIntOk s then true
  else if pyFloatOk s then true
  else if pyIntOk s then true
  else if s == "true" || s == "false" then true
  else if s == "null" || s == "~" then true
  else if timestampMatch s then true
  else false

/-
Model of the `re_range_part.findall` / `re_length_part.findall` scanning
used by the constraint translator.  The regular expressions (copied in the
source from pyang's syntax.py) recognise one clause `low (.. high)?` at a
time; `findall` scans left to right, emitting each non-overlapping match
and skipping one character where no match starts.  The code keeps capture
groups 2 and 7 (range) resp. 2 and 4 (length): the low and high tokens.
-/

/-- Match a literal prefix, returning the remainder. -/
def litMatch : List Char → List Char → Option (List Char)
  | [], cs => some cs
  | l :: ls, c :: cs => if c == l then litMatch ls cs else none
  | _ :: _, [] => none

/-- Match the numeric alternative of a range bound:
`(+|-)?[0-9]+(.[0-9]+)?`, greedy with the fraction dropped when it has no
digits. -/
def matchRangeNum (cs : List Char) : Option (List Char × List Char) :=
  let (sgn, cs1) := match cs with
    | c :: rest => if c == '+' || c == '-' then ([c], rest) else (([] : List Char), cs)
    | [] => (([] : List Char), [])
  match cs1.span (·.isDigit) with
  | ([], _) => none
  | (ds, cs2) =>
    match cs2 with
    | '.' :: cs3 =>
      (match cs3.span (·.isDigit) with
       | ([], _) => some (sgn ++ ds, cs2)
       | (fs, cs4) => some (sgn ++ ds ++ '.' :: fs, cs4))
    | _ => some (sgn ++ ds, cs2)

/-- The low alternation of a range clause: `-INF | min | max | number`,
tried in the order of the regular expression. -/
def matchRangeLow (cs : List Char) : Option (List Char × List Char) :=
  match litMatch "-INF".data cs with
  | some rest => some ("-INF".data, rest)
  | none =>
    match litMatch "min".data cs with
    | some rest => some ("min".data, rest)
    | none =>
      match litMatch "max".data cs with
      | some rest => some ("max".data, rest)
      | none => matchRangeNum cs

/-- The high alternation of a range clause: `INF | min | max | number`. -/
def matchRangeHigh (cs : List Char) : Option (List Char × List Char) :=
  match litMatch "INF".data cs with
  | some rest => some ("INF".data, rest)
  | none =>
    match litMatch "min".data cs with
    | some rest => some ("min".data, rest)
    | none =>
      match litMatch "max".data cs with
      | some rest => some ("max".data, rest)
      | none => matchRangeNum cs

def skipWs (cs : List Char) : List Char := cs.dropWhile (fun c => isPySpace c)

/-- An anchored match of one range clause `low \s* (.. \s* high \s*)?`,
returning the captured low and high tokens (high empty when absent) and the
remaining input. -/
def matchRangeClause (cs : List Char) : Option (String × String × List Char) :=
  match matchRangeLow cs with
  | none => none
  | some (lo, r1) =>
    let r2 := skipWs r1
    match litMatch "..".data r2 with
    | none => some (String.mk lo, "", r2)
    | some r3 =>
      match matchRangeHigh (skipWs r3) with
      | none => some (String.mk lo, "", r2)
      | some (hi, r4) => some (String.mk lo, String.mk hi, skipWs r4)

/-- The `findall` scan over range clauses. -/
def scanRangesAux : Nat → List Char → List (String × String)
  | 0, _ => []
  | _ + 1, [] => []
  | n + 1, c :: cs =>
    match matchRangeClause (c :: cs) with
    | some (lo, hi, rest) => (lo, hi) :: scanRangesAux n rest
    | none => scanRangesAux n cs

/-- Source `[(m[1], m[6]) for m in re_range_part.findall(stmt.arg)]`. -/
def scanRanges (s : String) : List (String × String) :=
  scanRangesAux s.data.length s.data

/-- The low/high alternation of a length clause: `min | max | [0-9]+`. -/
def matchLengthTok (cs : List Char) : Option (List Char × List Char) :=
  match litMatch "min".data cs with
  | some rest => some ("min".data, rest)
  | none =>
    match litMatch "max".data cs with
    | some rest => some ("max".data, rest)
    | none =>
      match cs.span (·.isDigit) with
      | ([], _) => none
      | (ds, rest) => some (ds, rest)

/-- An anchored match of one length clause. -/
def matchLengthClause (cs : List Char) : Option (String × String × List Char) :=
  match matchLengthTok cs with
  | none => none
  | some (lo, r1) =>
    let r2 := skipWs r1
    match litMatch "..".data r2 with
    | none => some (String.mk lo, "", r2)
    | some r3 =>
      match matchLengthTok (skipWs r3) with
      | none => some (String.mk lo, "", r2)
      | some (hi, r4) => some (String.mk lo, String.mk hi, skipWs r4)

/-- The `findall` scan over length clauses. -/
def scanLengthsAux : Nat → List Char → List (String × String)
  | 0, _ => []
  | _ + 1, [] => []
  | n + 1, c :: cs =>
    match matchLengthClause (c :: cs) with
    | some (lo, hi, rest) => (lo, hi) :: scanLengthsAux n rest
    | none => scanLengthsAux n cs

/-- Source `[(m[1], m[3]) for m in re_length_part.findall(stmt.arg)]`. -/
def scanLengths (s : String) : List (String × String) :=
  scanLengthsAux s.data.length s.data

/-
The Text Formatter: emit_text_string and emit_description.
-/

def containsChar (c : Char) (s : String) : Bool := s.data.contains c

/-- Source `emit_text_string`: folded block style when the text has several
lines or its first line contains a colon or a single quote, inline
otherwise. -/
def emit_text_string (_ctx : Ctx) (lines0 : List String) (ind : String) : Res :=
  let lines := if lines0.isEmpty then [""] else lines0
  let l0 := lines.headD ""
  if lines.length > 1 || containsChar ':' l0 || containsChar '\'' l0 then
    rcat (wr ">-\n" ::
      lines.map (fun line => wr (ind ++ "  " ++ pyLstrip line ++ "\n")))
  else
    wr (l0 ++ "\n")

/-- Source `emit_description`. -/
def emit_description (ctx : Ctx) (stmt : Stmt) (ind : String) : Res :=
  rcat [wr (ind ++ "description: "),
        emit_text_string ctx (wrap_text stmt.arg) ind,
        check_substmts stmt []]

/-
The Metadata Emitter.
-/

def emit_yang_version (_ctx : Ctx) (stmt : Stmt) (ind : String) : Res :=
  rcat [wr (ind ++ "yang-version: " ++ stmt.arg ++ "\n"), check_substmts stmt []]

def emit_organization (ctx : Ctx) (stmt : Stmt) (ind : String) : Res :=
  rcat [wr (ind ++ "organization: "),
        emit_text_string ctx (wrap_text stmt.arg) ind,
        check_substmts stmt []]

def emit_contact (ctx : Ctx) (stmt : Stmt) (ind : String) : Res :=
  rcat [wr (ind ++ "contact: "),
        emit_text_string ctx (wrap_text stmt.arg) ind,
        check_substmts stmt []]

def emit_namespace (_ctx : Ctx) (stmt : Stmt) (ind : String) : Res :=
  wr (ind ++ "namespace: " ++ stmt.arg ++ "\n")

/-- Source `emit_prefix`.  The assignment `ctx.local_prefix = stmt.arg` it
performs is reflected in the `Ctx.localPfx` field, which callers of the
data-type engine have already set (the module's prefix declaration is
emitted before any data type). -/
def emit_prefix_stmt (_ctx : Ctx) (stmt : Stmt) (ind : String) : Res :=
  rcat [wr (ind ++ "# TOSCA does not support prefix for local namespaces\n"),
        wr (ind ++ "prefix: " ++ stmt.arg ++ "\n")]

def emit_belongs_to (_ctx : Ctx) (stmt : Stmt) (ind : String) : Res :=
  wr (ind ++ "belongs-to: " ++ stmt.arg ++ "\n")

def emit_reference (ctx : Ctx) (stmt : Stmt) (ind : String) : Res :=
  rcat [wr (ind ++ "reference: "),
        emit_text_string ctx (wrap_text stmt.arg) ind,
        check_substmts stmt []]

/-- Source `emit_status` (note: the source writes no trailing newline). -/
def emit_status (_ctx : Ctx) (stmt : Stmt) (ind : String) : Res :=
  wr (ind ++ "status: " ++ stmt.arg)

/-- Source `emit_revision`: the substatement check runs first, then nothing
is written when the revision has neither description nor reference. -/
def emit_revision (ctx : Ctx) (stmt : Stmt) (ind : String) : Res :=
  let description := stmt.search_one "description"
  let reference := stmt.search_one "reference"
  rcat [check_substmts stmt ["description", "reference"],
        if description.isNone && reference.isNone then ([], [])
        else
          rcat [wr (ind ++ "'" ++ stmt.arg ++ "':\n"),
                ropt description (fun d => emit_description ctx d (ind ++ "  ")),
                ropt reference (fun r => emit_reference ctx r (ind ++ "  "))]]

def emit_revisions (ctx : Ctx) (revisions : List Stmt) (ind : String) : Res :=
  rcat (wr (ind ++ "revisions:\n") ::
    revisions.map (fun r => emit_revision ctx r (ind ++ "  ")))

/-- Source `emit_feature`: substatement check first, nothing written when
the feature has no description, reference or status. -/
def emit_feature (ctx : Ctx) (stmt : Stmt) (ind : String) : Res :=
  let description := stmt.search_one "description"
  let reference := stmt.search_one "reference"
  let status := stmt.search_one "status"
  rcat [check_substmts stmt ["description", "reference", "status"],
        if description.isNone && reference.isNone && status.isNone then ([], [])
        else
          rcat [wr (ind ++ "'" ++ stmt.arg ++ "':\n"),
                ropt description (fun d => emit_description ctx d (ind ++ "  ")),
                ropt reference (fun r => emit_reference ctx r (ind ++ "  ")),
                ropt status (fun st => emit_status ctx st (ind ++ "  "))]]

def emit_features (ctx : Ctx) (features : List Stmt) (ind : String) : Res :=
  rcat (wr (ind ++ "features:\n") ::
    features.map (fun f => emit_feature ctx f (ind ++ "  ")))

/-- Source `emit_metadata`: YANG statements with no TOSCA equivalent are
folded into a `metadata` block.  The guard enumerates yang-version,
organization, contact, reference, revisions, features, namespace and
prefix; `belongs-to` is searched and emitted inside the block but is not
part of the guard. -/
def emit_metadata (ctx : Ctx) (stmt : Stmt) (ind : String) : Res :=
  let yang_version := stmt.search_one "yang-version"
  let organization := stmt.search_one "organization"
  let contact := stmt.search_one "contact"
  let ns := stmt.search_one "namespace"
  let pfx := stmt.search_one "prefix"
  let belongs_to := stmt.search_one "belongs-to"
  let revisions := stmt.search "revision"
  let reference := stmt.search_one "reference"
  let features := stmt.search "feature"
  if yang_version.isSome || organization.isSome || contact.isSome
      || reference.isSome || revisions.length != 0 || features.length != 0
      || ns.isSome || pfx.isSome then
    let ind2 := ind ++ "  "
    rcat [wr (ind ++ "metadata:\n"),
          ropt yang_version (fun s => emit_yang_version ctx s ind2),
          ropt organization (fun s => emit_organization ctx s ind2),
          ropt contact (fun s => emit_contact ctx s ind2),
          ropt ns (fun s => emit_namespace ctx s ind2),
          ropt pfx (fun s => emit_prefix_stmt ctx s ind2),
          ropt belongs_to (fun s => emit_belongs_to ctx s ind2),
          (if revisions.length != 0 then emit_revisions ctx revisions ind2 else ([], [])),
          ropt reference (fun s => emit_reference ctx s ind2),
          (if features.length != 0 then emit_features ctx features ind2 else ([], []))]
  else ([], [])

/-
Small single-statement emitters.
-/

def emit_units (_ctx : Ctx) (stmt : Stmt) (ind : String) : Res :=
  rcat [wr (ind ++ "# TOSCA uses scalar unit types\n"),
        wr (ind ++ "# units: " ++ stmt.arg ++ "\n")]

def emit_default (_ctx : Ctx) (stmt : Stmt) (ind : String) : Res :=
  wr (ind ++ "default: " ++ stmt.arg ++ "\n")

def emit_commented_default (_ctx : Ctx) (stmt : Stmt) (ind : String) : Res :=
  wr (ind ++ "# TOSCA doesn't support 'default' here\n" ++ ind ++ "# default: "
    ++ stmt.arg ++ "\n")

def emit_when (_ctx : Ctx) (stmt : Stmt) (ind : String) : Res :=
  wr (ind ++ "# when: " ++ stmt.arg ++ "\n")

def emit_must (_ctx : Ctx) (stmt : Stmt) (ind : String) : Res :=
  rcat [wr (ind ++ "# must:\n" ++ ind ++ "#   " ++ stmt.arg ++ "\n"),
        ropt (stmt.search_one "error-message")
          (fun e => wr (ind ++ "#   error-message: " ++ e.arg ++ "\n")),
        check_substmts stmt ["error-message"]]

/-- Source `emit_mandatory`: always writes a `required:` line, defaulting to
`false` when the leaf has no `mandatory` substatement. -/
def emit_mandatory (_ctx : Ctx) (stmt : Option Stmt) (ind : String) : Res :=
  wr (ind ++ "required: " ++ (match stmt with | some s => s.arg | none => "false") ++ "\n")

def emit_if_feature (_ctx : Ctx) (stmt : Stmt) (ind : String) : Res :=
  wr (ind ++ "# if-feature: " ++ stmt.arg ++ "\n")

def emit_key (_ctx : Ctx) (stmt : Stmt) (ind : String) : Res :=
  wr (ind ++ "# key: " ++ stmt.arg ++ "\n")

def emit_ordered_by (_ctx : Ctx) (stmt : Stmt) (ind : String) : Res :=
  wr (ind ++ "# ordered-by: " ++ stmt.arg ++ "\n")

def emit_unique (_ctx : Ctx) (stmt : Stmt) (ind : String) : Res :=
  wr (ind ++ "# unique: " ++ stmt.arg ++ "\n")

def emit_presence (_ctx : Ctx) (stmt : Stmt) (ind : String) : Res :=
  wr (ind ++ "# presence: " ++ stmt.arg ++ "\n")

def emit_path (_ctx : Ctx) (stmt : Stmt) (ind : String) : Res :=
  wr (ind ++ "# path: " ++ stmt.arg ++ "\n")

def emit_fraction_digits (_ctx : Ctx) (stmt : Stmt) (ind : String) : Res :=
  wr (ind ++ "# fraction-digits: " ++ stmt.arg ++ "\n")

def emit_min_elements (_ctx : Ctx) (stmt : Stmt) (ind : String) : Res :=
  wr (ind ++ "- min_length: " ++ stmt.arg ++ "\n")

def emit_max_elements (_ctx : Ctx) (stmt : Stmt) (ind : String) : Res :=
  wr (ind ++ "- max_length: " ++ stmt.arg ++ "\n")

/-
The Constraint Translator.
-/

/-- The multi-clause loop of `emit_length`.  The source rebinds `indent`
inside the loop when it opens an `- and:` block, so the deeper indentation
persists for the remaining clauses; the recursion threads the indent
accordingly. -/
def lengthClauses : List (String × String) → String → Res
  | [], _ => ([], [])
  | (lo, hi) :: rest, ind =>
    if hi != "" then
      let deeper := lo != "min" && hi != "max"
      let ind2 := if deeper then ind ++ "  " else ind
      rcat [(if deeper then wr (ind ++ "- and:\n") else ([], [])),
            (if lo != "min" then wr (ind2 ++ "- min_length: " ++ lo ++ "\n") else ([], [])),
            (if hi != "max" then wr (ind2 ++ "- max_length: " ++ hi ++ "\n") else ([], [])),
            lengthClauses rest ind2]
    else
      rcat [(if lo != "max" then wr (ind ++ "- max_length: " ++ lo ++ "\n") else ([], [])),
            lengthClauses rest ind]

/-- Source `emit_length`. -/
def emit_length (_ctx : Ctx) (stmt : Stmt) (ind : String) : Res :=
  let lengths := scanLengths stmt.arg
  rcat [(if lengths.length > 1 then
           rcat [wr (ind ++ "# This is not (yet) valid TOSCA. FIX MANUALLY\n"),
                 wr (ind ++ "- or:\n"),
                 lengthClauses lengths (ind ++ "  ")]
         else
           match lengths with
           | [] =>
             -- `lengths[0]` raises IndexError in the source; unreachable for
             -- arguments conforming to the YANG length grammar.
             ([], ["IndexError: list index out of range"])
           | (lo, hi) :: _ =>
             if hi != "" then
               rcat [(if lo != "min" then wr (ind ++ "- min_length: " ++ lo ++ "\n") else ([], [])),
                     (if hi != "max" then wr (ind ++ "- max_length: " ++ hi ++ "\n") else ([], []))]
             else
               (if lo != "max" then wr (ind ++ "- max_length: " ++ lo ++ "\n") else ([], []))),
        check_substmts stmt []]

/-- Source `emit_in_range`: a YANG range argument may mix single admissible
values (clauses without a high bound) and true ranges; several ranges, or a
mix, are joined under an `or:` marked for manual fixing. -/
def emit_in_range (_ctx : Ctx) (stmt : Stmt) (ind : String) : Res :=
  let ranges := scanRanges stmt.arg
  let num_valid_values := (ranges.filter (fun p => p.2 == "")).length
  let num_ranges := (ranges.filter (fun p => p.2 != "")).length
  let marked := (num_valid_values > 0 && num_ranges > 0) || num_ranges > 1
  let ind2 := if marked then ind ++ "  " else ind
  rcat [(if marked then
           rcat [wr (ind ++ "# This is not (yet) valid TOSCA. FIX MANUALLY\n"),
                 wr (ind ++ "- or:\n")]
         else ([], [])),
        (if num_valid_values > 0 then
           rcat (wr (ind2 ++ "- valid_values:\n") ::
             (ranges.filter (fun p => p.2 == "")).map
               (fun p => wr (ind2 ++ "  " ++ "- " ++ p.1 ++ "\n")))
         else ([], [])),
        (if num_ranges > 0 then
           rcat ((ranges.filter (fun p => p.2 != "")).map (fun p =>
             let lo := if p.1 == "min" then "UNBOUNDED" else p.1
             let hi := if p.2 == "max" then "UNBOUNDED" else p.2
             wr (ind2 ++ "- in_range: [" ++ lo ++ ", " ++ hi ++ "]\n")))
         else ([], [])),
        check_substmts stmt []]

def emit_pattern (_ctx : Ctx) (stmt : Stmt) (ind : String) : Res :=
  rcat [wr (ind ++ "- pattern: '" ++ stmt.arg ++ "'\n"), check_substmts stmt []]

def emit_patterns (ctx : Ctx) (stmts : List Stmt) (ind : String) : Res :=
  rcat (stmts.map (fun p => emit_pattern ctx p ind))

def emit_enum (_ctx : Ctx) (stmt : Stmt) (ind : String) : Res :=
  let value := stmt.search_one "value"
  let description := stmt.search_one "description"
  let en := if must_escape stmt.arg then "'" ++ stmt.arg ++ "'" else stmt.arg
  rcat [(match value with
         | some v => wr (ind ++ "- " ++ en ++ "  # Value: " ++ v.arg ++ "\n")
         | none => wr (ind ++ "- " ++ en ++ "\n")),
        (match description with
         | some d => rcat ((wrap_text d.arg).map (fun line => wr (ind ++ "  # " ++ line ++ "\n")))
         | none => ([], [])),
        check_substmts stmt ["value", "description"]]

def emit_enums (ctx : Ctx) (stmts : List Stmt) (ind : String) : Res :=
  rcat (wr (ind ++ "- valid_values:\n") ::
    stmts.map (fun e => emit_enum ctx e (ind ++ "  ")))

def emit_bit (_ctx : Ctx) (stmt : Stmt) (ind : String) : Res :=
  let description := stmt.search_one "description"
  let b := if must_escape stmt.arg then "'" ++ stmt.arg ++ "'" else stmt.arg
  rcat [wr (ind ++ "- " ++ b ++ "\n"),
        (match description with
         | some d => rcat ((wrap_text d.arg).map (fun line => wr (ind ++ "  # " ++ line ++ "\n")))
         | none => ([], [])),
        check_substmts stmt ["description"]]

def emit_bits (ctx : Ctx) (stmts : List Stmt) (ind : String) : Res :=
  rcat (wr (ind ++ "- valid_values:\n") ::
    stmts.map (fun b => emit_bit ctx b (ind ++ "  ")))

/-- Source `emit_constraints`. -/
def emit_constraints (ctx : Ctx) (stmt : Stmt) (ind : String) : Res :=
  let length := stmt.search_one "length"
  let in_range := stmt.search_one "range"
  let pattern := stmt.search "pattern"
  let en := stmt.search "enum"
  let bits := stmt.search "bit"
  let min_elements := stmt.search_one "min-elements"
  let max_elements := stmt.search_one "max-elements"
  if length.isSome || in_range.isSome || pattern.length != 0 || en.length != 0
      || min_elements.isSome || max_elements.isSome || bits.length != 0 then
    let ind2 := ind ++ "  "
    rcat [wr (ind ++ "constraints:\n"),
          ropt length (fun s => emit_length ctx s ind2),
          ropt in_range (fun s => emit_in_range ctx s ind2),
          (if pattern.length != 0 then emit_patterns ctx pattern ind2 else ([], [])),
          (if en.length != 0 then emit_enums ctx en ind2 else ([], [])),
          (if bits.length != 0 then emit_bits ctx bits ind2 else ([], [])),
          ropt min_elements (fun s => emit_min_elements ctx s ind2),
          ropt max_elements (fun s => emit_max_elements ctx s ind2)]
  else ([], [])

/-
The Type Reference Resolver.
-/

/-- Helper for `splitOnceColon`: locate the first colon. -/
def splitOnceColonAux : List Char → List Char → Option (List Char × List Char)
  | _, [] => none
  | acc, c :: rest =>
    if c == ':' then some (acc.reverse, rest)
    else splitOnceColonAux (c :: acc) rest

/-- Split on the first colon only (Python's `split(':', 1)`). -/
def splitOnceColon (s : String) : List String :=
  match splitOnceColonAux [] s.data with
  | none => [s]
  | some (bef, aft) => [String.mk bef, String.mk aft]

/-- Source `create_qualified_name`: strip a namespace prefix equal to the
context's local prefix (TOSCA has no local prefixes), keep any other
prefix, then prepend the optional qualifier. -/
def create_qualified_name (ctx : Ctx) (type_string : String)
    (qualifier : Option String) : String :=
  match splitOnceColon type_string with
  | [p0, p1] =>
    (match ctx.localPfx with
     | none => type_string
     | some lp =>
       if p0 != lp then type_string
       else match qualifier with
         | some q => q ++ ":" ++ p1
         | none => p1)
  | _ =>
    match qualifier with
    | some q => q ++ ":" ++ type_string
    | none => type_string

/-- Source `is_attribute`: a statement carrying a `config false`
substatement defines an attribute. -/
def is_attribute (stmt : Stmt) : Bool :=
  match stmt.search_one "config" with
  | some config => config.arg == "false"
  | none => false

/-- Source `has_single_uses_stmt_only`: exactly one `uses` substatement and
no local leaf, leaf-list, list, container, choice or augment children. -/
def has_single_uses_stmt_only (stmt : Stmt) : Bool :=
  if (stmt.search "uses").length != 1 then false
  else if stmt.substmts.any (fun sub =>
    ["leaf", "leaf-list", "list", "container", "choice", "augment"].contains sub.keyword)
  then false
  else true

/-- Source `get_single_uses_stmt_grouping`: the qualified name of the
grouping referenced by the statement's single `uses` substatement.  (The
source indexes `usess[0]`; every call site has established
`has_single_uses_stmt_only`, so the list is non-empty.) -/
def get_single_uses_stmt_grouping (ctx : Ctx) (stmt : Stmt) : String :=
  match stmt.search "uses" with
  | u :: _ => create_qualified_name ctx u.arg none
  | [] => ""

/-- Source `emit_uses_derived_from`: the first `uses` statement gives the
TOSCA parent type. -/
def emit_uses_derived_from (ctx : Ctx) (_stmt : Stmt) (uses : Stmt) (ind : String) : Res :=
  wr (ind ++ "derived_from: " ++ create_qualified_name ctx uses.arg none ++ "\n")

/-
The fueled recursive type emitters (`emit_derived_from` and `emit_type`
recurse into the member types of a union).
-/

/-- Source `emit_derived_from`, fueled for the recursion into union member
types. -/
def emit_derived_fromF : Nat → Ctx → Stmt → String → Res
  | 0, _, _, _ => ([], ["RecursionError: maximum recursion depth exceeded"])
  | n + 1, ctx, stmt, ind =>
    let tosca_type := match ctx.type_map.lookup stmt.arg with
      | some t => t
      | none => create_qualified_name ctx stmt.arg none
    rcat [(if tosca_type == "union" then
             rcat ([wr (ind ++ "# The YANG type is a union. Select one of the following options:\n")]
               ++ ((stmt.search "type").enum.map (fun p =>
                    rcat [wr (ind ++ "# Option " ++ toString (p.1 + 1) ++ "\n"),
                          emit_derived_fromF n ctx p.2 ind]))
               ++ [wr (ind ++ "#\n")])
           else
             rcat [wr (ind ++ "derived_from: " ++ tosca_type ++ "\n"),
                   ropt (stmt.search_one "fraction-digits")
                     (fun f => emit_fraction_digits ctx f ind),
                   emit_constraints ctx stmt ind]),
          check_substmts stmt ["enum", "fraction-digits", "length", "range", "pattern", "type"]]

def emit_derived_from (ctx : Ctx) (stmt : Stmt) (ind : String) : Res :=
  emit_derived_fromF (stmtSize stmt) ctx stmt ind

/-- Source `emit_type`, fueled for the recursion into union member types
(the recursive call passes no qualifier, as in the source). -/
def emit_typeF : Nat → Ctx → Stmt → String → Option String → Res
  | 0, _, _, _, _ => ([], ["RecursionError: maximum recursion depth exceeded"])
  | n + 1, ctx, stmt, ind, qualifier =>
    let tosca_type := match ctx.type_map.lookup stmt.arg with
      | some t => t
      | none => create_qualified_name ctx stmt.arg qualifier
    rcat [(if tosca_type == "union" then
             rcat ([wr (ind ++ "# The YANG type is a union. Select one of the following options:\n")]
               ++ ((stmt.search "type").enum.map (fun p =>
                    rcat [wr (ind ++ "# Option " ++ toString (p.1 + 1) ++ "\n"),
                          emit_typeF n ctx p.2 ind none]))
               ++ [wr (ind ++ "#\n")])
           else
             rcat [wr (ind ++ "type: " ++ tosca_type ++ "\n"),
                   ropt (stmt.search_one "path") (fun p => emit_path ctx p ind),
                   ropt (stmt.search_one "fraction-digits")
                     (fun f => emit_fraction_digits ctx f ind),
                   emit_constraints ctx stmt ind]),
          check_substmts stmt ["bit", "enum", "fraction-digits", "length", "range",
                               "pattern", "path", "type"]]

def emit_type (ctx : Ctx) (stmt : Stmt) (ind : String) (qualifier : Option String) : Res :=
  emit_typeF (stmtSize stmt) ctx stmt ind qualifier

/-- Source `emit_typedef`. -/
def emit_typedef (ctx : Ctx) (stmt : Stmt) (ind : String) : Res :=
  let derived_from := stmt.search_one "type"
  let units := stmt.search_one "units"
  let dflt := stmt.search_one "default"
  let description := stmt.search_one "description"
  let ind2 := ind ++ "  "
  rcat [wr (ind ++ stmt.arg ++ ":\n"),
        ropt description (fun d => emit_description ctx d ind2),
        ropt derived_from (fun d => emit_derived_from ctx d ind2),
        ropt units (fun u => emit_units ctx u ind2),
        ropt dflt (fun d => emit_commented_default ctx d ind2),
        emit_metadata ctx stmt ind2,
        check_substmts stmt ["default", "description", "reference", "type", "units"]]

/-
Property/attribute classification (`has_properties`, `has_attributes`),
fueled for the recursion through resolved groupings of trailing `uses`
substatements.
-/

def property_keywords : List String :=
  ["leaf", "leaf-list", "list", "container", "choice", "augment"]

/-- Source `has_properties`, fueled. -/
def has_propertiesF : Nat → Stmt → Bool
  | 0, _ => false
  | n + 1, stmt =>
    stmt.substmts.any (fun sub =>
      property_keywords.contains sub.keyword && !is_attribute sub)
    || (let usess := stmt.search "uses"
        decide (usess.length > 1) &&
          (usess.drop 1).any (fun u =>
            match u.iGrouping with
            | some g => has_propertiesF n g
            | none => false))

def has_properties (stmt : Stmt) : Bool := has_propertiesF (stmtSize stmt) stmt

/-- Source `has_attributes`, fueled. -/
def has_attributesF : Nat → Stmt → Bool
  | 0, _ => false
  | n + 1, stmt =>
    stmt.substmts.any (fun sub =>
      property_keywords.contains sub.keyword && is_attribute sub)
    || (let usess := stmt.search "uses"
        decide (usess.length > 1) &&
          (usess.drop 1).any (fun u =>
            match u.iGrouping with
            | some g => has_attributesF n g
            | none => false))

def has_attributes (stmt : Stmt) : Bool := has_attributesF (stmtSize stmt) stmt

/-
The property emitters for scalar-carrying statements.
-/

/-- Source `emit_leaf`. -/
def emit_leaf (ctx : Ctx) (stmt : Stmt) (ind : String) (prop : Bool)
    (qualifier : Option String) : Res :=
  let is_attr := is_attribute stmt
  if is_attr == prop then ([], [])
  else
    let name := prop_name ctx stmt.arg
    let ind2 := ind ++ "  "
    rcat [wr (ind ++ name ++ ":\n"),
          ropt (stmt.search_one "description") (fun d => emit_description ctx d ind2),
          emit_metadata ctx stmt ind2,
          ropt (stmt.search_one "type") (fun t => emit_type ctx t ind2 qualifier),
          (if !is_attr then emit_mandatory ctx (stmt.search_one "mandatory") ind2
           else ([], [])),
          ropt (stmt.search_one "default") (fun d => emit_default ctx d ind2),
          ropt (stmt.search_one "units") (fun u => emit_units ctx u ind2),
          ropt (stmt.search_one "when") (fun w => emit_when ctx w ind2),
          ropt (stmt.search_one "must") (fun m => emit_must ctx m ind2),
          check_substmts stmt ["reference", "description", "type", "units", "config",
                               "mandatory", "default", "must", "when"]]

/-- Source `emit_leaf_list`. -/
def emit_leaf_list (ctx : Ctx) (stmt : Stmt) (ind : String) (prop : Bool)
    (qualifier : Option String) : Res :=
  if is_attribute stmt == prop then ([], [])
  else
    let name := prop_name ctx stmt.arg
    let ind2 := ind ++ "  "
    rcat [wr (ind ++ name ++ ":\n"),
          ropt (stmt.search_one "description") (fun d => emit_description ctx d ind2),
          emit_metadata ctx stmt ind2,
          wr (ind2 ++ "type: list\n"),
          ropt (stmt.search_one "type") (fun t =>
            rcat [wr (ind2 ++ "entry_schema:\n"),
                  emit_type ctx t (ind2 ++ "  ") qualifier]),
          ropt (stmt.search_one "units") (fun u => emit_units ctx u ind2),
          emit_constraints ctx stmt ind2,
          ropt (stmt.search_one "when") (fun w => emit_when ctx w ind2),
          ropt (stmt.search_one "must") (fun m => emit_must ctx m ind2),
          check_substmts stmt ["reference", "description", "type", "units", "config",
                               "min-elements", "max-elements", "must", "when"]]

/-- Source `emit_list` (the property pass for a `list` statement): the
entry schema names the grouping of a single-`uses` list directly. -/
def emit_list (ctx : Ctx) (stmt : Stmt) (ind : String) (prop : Bool)
    (qualifier : Option String) : Res :=
  if is_attribute stmt == prop then ([], [])
  else
    let entry0 := if has_single_uses_stmt_only stmt then
        get_single_uses_stmt_grouping ctx stmt
      else stmt.arg
    let entry_schema := match qualifier with
      | some q => q ++ ":" ++ entry0
      | none => entry0
    let name := prop_name ctx stmt.arg
    let ind2 := ind ++ "  "
    rcat [wr (ind ++ name ++ ":\n"),
          ropt (stmt.search_one "description") (fun d => emit_description ctx d ind2),
          emit_metadata ctx stmt ind2,
          wr (ind2 ++ "type: list\n"),
          wr (ind2 ++ "entry_schema: " ++ entry_schema ++ "\n"),
          emit_constraints ctx stmt ind2,
          ropt (stmt.search_one "key") (fun k => emit_key ctx k ind2),
          ropt (stmt.search_one "unique") (fun u => emit_unique ctx u ind2),
          ropt (stmt.search_one "ordered-by") (fun o => emit_ordered_by ctx o ind2),
          check_substmts stmt ["reference", "description", "config", "ordered-by",
                               "typedef", "container", "grouping", "list", "uses", "key",
                               "unique", "leaf", "leaf-list", "min-elements",
                               "max-elements", "when", "must"]]

/-- Source `emit_container` (the property pass for a `container`
statement): the property type names the grouping of a single-`uses`
container directly. -/
def emit_container (ctx : Ctx) (stmt : Stmt) (ind : String) (prop : Bool)
    (qualifier : Option String) : Res :=
  if is_attribute stmt == prop then ([], [])
  else
    let type0 := if has_single_uses_stmt_only stmt then
        get_single_uses_stmt_grouping ctx stmt
      else stmt.arg
    let type_name := match qualifier with
      | some q => q ++ ":" ++ type0
      | none => type0
    let name := prop_name ctx stmt.arg
    let ind2 := ind ++ "  "
    rcat [wr (ind ++ name ++ ":\n"),
          ropt (stmt.search_one "description") (fun d => emit_description ctx d ind2),
          emit_metadata ctx stmt ind2,
          wr (ind2 ++ "type: " ++ type_name ++ "\n"),
          ropt (stmt.search_one "must") (fun m => emit_must ctx m ind2),
          ropt (stmt.search_one "presence") (fun p => emit_presence ctx p ind2),
          check_substmts stmt ["reference", "description", "config", "presence",
                               "typedef", "container", "grouping", "list", "uses",
                               "leaf", "leaf-list", "when", "must"]]

/-- Source `emit_augment` (the property pass for an `augment`
substatement). -/
def emit_augment (ctx : Ctx) (stmt : Stmt) (ind : String) (prop : Bool) : Res :=
  let _ := prop
  let type_name := stmt.arg
  let name := prop_name ctx stmt.arg
  let ind2 := ind ++ "  "
  rcat [wr (ind ++ name ++ ":\n"),
        ropt (stmt.search_one "description") (fun d => emit_description ctx d ind2),
        emit_metadata ctx stmt ind2,
        wr (ind2 ++ "type: " ++ type_name ++ "\n"),
        ropt (stmt.search_one "must") (fun m => emit_must ctx m ind2),
        check_substmts stmt ["reference", "description", "container", "list", "uses",
                             "leaf", "leaf-list", "when", "must"]]

/-
The mutually recursive property emission cluster: `emit_properties`
dispatches per substatement, `emit_choice` flattens a choice into a string
property plus per-option property blocks, `emit_case` re-enters
`emit_properties`.
-/

mutual

/-- Source `emit_properties`, fueled: emit one property (or attribute) per
substatement, in declaration order. -/
def emit_propertiesF : Nat → Ctx → Stmt → String → Bool → Option String → Res
  | 0, _, _, _, _, _ => ([], ["RecursionError: maximum recursion depth exceeded"])
  | n + 1, ctx, stmt, ind, prop, qualifier =>
    rcat (stmt.substmts.map (fun sub =>
      if sub.keyword == "leaf" then emit_leaf ctx sub ind prop qualifier
      else if sub.keyword == "leaf-list" then emit_leaf_list ctx sub ind prop qualifier
      else if sub.keyword == "list" then emit_list ctx sub ind prop qualifier
      else if sub.keyword == "container" then emit_container ctx sub ind prop qualifier
      else if sub.keyword == "choice" then emit_choiceF n ctx sub ind prop qualifier
      else if sub.keyword == "augment" then emit_augment ctx sub ind prop
      else ([], [])))

/-- Source `emit_choice`, fueled: a choice becomes a string-typed property
whose valid values are its case (or leaf) names, followed by one property
block per option.  The nested `emit_leaf`/`emit_properties` calls use the
source's default `prop=True`. -/
def emit_choiceF : Nat → Ctx → Stmt → String → Bool → Option String → Res
  | 0, _, _, _, _, _ => ([], ["RecursionError: maximum recursion depth exceeded"])
  | n + 1, ctx, stmt, ind, prop, qualifier =>
    let is_attr := is_attribute stmt
    if is_attr == prop then ([], [])
    else
      let cases := stmt.search "case"
      let leafs := stmt.search "leaf"
      let options := if cases.length != 0 then cases
        else if leafs.length != 0 then leafs else []
      let name := prop_name ctx stmt.arg
      let ind2 := ind ++ "  "
      rcat ([wr (ind ++ name ++ ":\n"),
             ropt (stmt.search_one "description") (fun d => emit_description ctx d ind2),
             wr (ind2 ++ "type: string\n"),
             (if !is_attr then emit_mandatory ctx (stmt.search_one "mandatory") ind2
              else ([], [])),
             ropt (stmt.search_one "default") (fun d => emit_default ctx d ind2),
             wr (ind2 ++ "constraints:\n"),
             wr (ind2 ++ "  " ++ "- valid_values:\n")]
        ++ options.map (fun o => wr (ind2 ++ "    " ++ "- " ++ o.arg ++ "\n"))
        ++ [wr (ind ++ "# Select one of the following options\n" ++ ind ++ "#\n")]
        ++ cases.map (fun c => emit_caseF n ctx c ind qualifier)
        ++ leafs.map (fun l =>
             rcat [wr (ind ++ "# The following properties are used in case of '"
                     ++ l.arg ++ "'\n"),
                   emit_leaf ctx l ind true qualifier])
        ++ [wr (ind ++ "# End of options\n" ++ ind ++ "#\n"),
            check_substmts stmt ["case", "config", "default", "description",
                                 "leaf", "mandatory"]])

/-- Source `emit_case`, fueled. -/
def emit_caseF : Nat → Ctx → Stmt → String → Option String → Res
  | 0, _, _, _, _ => ([], ["RecursionError: maximum recursion depth exceeded"])
  | n + 1, ctx, stmt, ind, qualifier =>
    rcat [wr (ind ++ "# The following properties are used in case of '"
            ++ stmt.arg ++ "'\n"),
          (match stmt.search_one "description" with
           | some d => rcat ((wrap_text d.arg).map
               (fun line => wr (ind ++ "  # " ++ line ++ "\n")))
           | none => ([], [])),
          emit_propertiesF n ctx stmt ind true qualifier,
          check_substmts stmt ["leaf", "leaf-list", "list", "container", "choice",
                               "description"]]

end

def emit_properties (ctx : Ctx) (stmt : Stmt) (ind : String) (prop : Bool)
    (qualifier : Option String) : Res :=
  emit_propertiesF (stmtSize stmt) ctx stmt ind prop qualifier

def emit_choice (ctx : Ctx) (stmt : Stmt) (ind : String) (prop : Bool)
    (qualifier : Option String) : Res :=
  emit_choiceF (stmtSize stmt) ctx stmt ind prop qualifier

def emit_case (ctx : Ctx) (stmt : Stmt) (ind : String) (qualifier : Option String) : Res :=
  emit_caseF (stmtSize stmt) ctx stmt ind qualifier

/-- Source `emit_use`: copy the properties (or attributes) of the grouping
resolved for a trailing `uses` statement.  An unresolved grouping prints
one warning and contributes nothing. -/
def emit_use (ctx : Ctx) (stmt : Stmt) (u : Stmt) (ind : String) (prop : Bool) : Res :=
  match u.iGrouping with
  | none => ([], [mk_path_str stmt ++ ": uses(" ++ u.arg ++ ") not found"])
  | some grouping =>
    if (prop && !has_properties grouping) || (!prop && !has_attributes grouping) then
      ([], [])
    else
      let pfx : Option String := match splitOnceColon u.arg with
        | [p0, _] =>
          (match ctx.localPfx with
           | some lp => if p0 != lp then some p0 else none
           | none => some p0)
        | _ => none
      rcat [wr (ind ++ "# " ++ (if prop then "properties" else "attributes")
              ++ " from '" ++ u.arg ++ "'\n"),
            ropt (u.search_one "if-feature") (fun f =>
              wr (ind ++ "# Used only if the '" ++ f.arg ++ "' feature is enabled\n")),
            emit_properties ctx grouping ind prop pfx]

def emit_uses_properties (ctx : Ctx) (stmt : Stmt) (uses : List Stmt) (ind : String) : Res :=
  rcat (uses.map (fun u => emit_use ctx stmt u ind true))

def emit_uses_attributes (ctx : Ctx) (stmt : Stmt) (uses : List Stmt) (ind : String) : Res :=
  rcat (uses.map (fun u => emit_use ctx stmt u ind false))

/-
The Data Type Emitter: the mutually recursive core engine producing one
top-level TOSCA data type per typedef, grouping, container, list and
augmentation, recursing into nested statements first.
-/

mutual

/-- Source `emit_data_types_in_stmt`, fueled.  A container or list with a
single `uses` substatement and no local structural children is skipped (no
data type of its own). -/
def emit_data_types_in_stmtF : Nat → Ctx → Stmt → String → Res
  | 0, _, _, _ => ([], ["RecursionError: maximum recursion depth exceeded"])
  | n + 1, ctx, stmt, ind =>
    rcat [rcat ((stmt.search "typedef").map (fun td =>
            rcat [emit_typedef ctx td ind, wr "\n"])),
          rcat ((stmt.search "grouping").map (fun g =>
            rcat [emit_groupingF n ctx g ind, wr "\n"])),
          rcat ((stmt.search "container").map (fun c =>
            if has_single_uses_stmt_only c then ([], [])
            else rcat [emit_data_typeF n ctx c ind, wr "\n"])),
          rcat ((stmt.search "list").map (fun l =>
            if has_single_uses_stmt_only l then ([], [])
            else rcat [emit_data_typeF n ctx l ind, wr "\n"])),
          rcat ((stmt.search "uses").map (fun u =>
            rcat ((u.search "augment").map (fun a =>
              rcat [pmsg ("Warning: review <" ++ a.arg ++ "> augments <" ++ u.arg ++ ">"),
                    emit_data_typeF n ctx a ind, wr "\n"])))),
          rcat ((stmt.search "choice").map (fun ch =>
            rcat ((ch.search "case").map (fun cs =>
              emit_data_types_in_stmtF n ctx cs ind)))),
          rcat ((stmt.search "augment").map (fun a =>
            rcat [emit_augmented_typeF n ctx a ind, wr "\n"]))]

/-- Source `emit_data_type`, fueled: nested definitions first, then the
type definition itself, deriving from the first `uses` statement and
copying properties/attributes of any further `uses` statements. -/
def emit_data_typeF : Nat → Ctx → Stmt → String → Res
  | 0, _, _, _ => ([], ["RecursionError: maximum recursion depth exceeded"])
  | n + 1, ctx, stmt, ind =>
    let ind2 := ind ++ "  "
    let uses := stmt.search "uses"
    let has_props := has_properties stmt
    rcat [emit_data_types_in_stmtF n ctx stmt ind,
          wr (ind ++ stmt.arg ++ ":\n"),
          ropt (stmt.search_one "description") (fun d => emit_description ctx d ind2),
          emit_metadata ctx stmt ind2,
          (match uses with
           | u :: _ => emit_uses_derived_from ctx stmt u ind2
           | [] => ([], [])),
          ropt (stmt.search_one "when") (fun w => emit_when ctx w ind2),
          ropt (stmt.search_one "must") (fun m => emit_must ctx m ind2),
          (if has_props then
             rcat [wr (ind2 ++ "properties:\n"),
                   emit_properties ctx stmt (ind2 ++ "  ") true none,
                   (if uses.length > 1 then
                      emit_uses_properties ctx stmt (uses.drop 1) (ind2 ++ "  ")
                    else ([], []))]
           else ([], [])),
          (if has_attributes stmt then
             rcat [wr (ind2 ++ "# TOSCA data types do not support attributes\n"),
                   wr (ind2 ++ "# Enable attributes when converting to a node type\n"),
                   (if !has_props then wr (ind2 ++ "properties:\n") else ([], [])),
                   wr (ind2 ++ "# attributes:\n"),
                   emit_properties ctx stmt (ind2 ++ "  ") false none]
           else ([], [])),
          (if uses.length > 1 then
             emit_uses_attributes ctx stmt (uses.drop 1) (ind2 ++ "  ")
           else ([], []))]

/-- Source `emit_augmented_type`, fueled: a module-level augment derives a
type named after its resolved target node. -/
def emit_augmented_typeF : Nat → Ctx → Stmt → String → Res
  | 0, _, _, _ => ([], ["RecursionError: maximum recursion depth exceeded"])
  | n + 1, ctx, stmt, ind =>
    let ind2 := ind ++ "  "
    -- `stmt.i_target_node.arg`: resolved by pyang for every validated augment.
    let name := (stmt.iTarget).getD ""
    let path := pySplitChar '/' stmt.arg
    let uses := stmt.search "uses"
    rcat [emit_data_types_in_stmtF n ctx stmt ind,
          wr (ind ++ name ++ ":\n"),
          ropt (stmt.search_one "description") (fun d => emit_description ctx d ind2),
          ropt (stmt.search_one "if-feature") (fun f => emit_if_feature ctx f ind2),
          (if (path.headD "") != "" then
             pmsg "Augment does not specify an absolute path"
           else ([], [])),
          wr (ind2 ++ "derived_from: "
            ++ create_qualified_name ctx (path.getLastD "") none ++ "\n"),
          emit_metadata ctx stmt ind2,
          ropt (stmt.search_one "when") (fun w => emit_when ctx w ind2),
          ropt (stmt.search_one "must") (fun m => emit_must ctx m ind2),
          wr (ind2 ++ "properties:\n"),
          emit_properties ctx stmt (ind2 ++ "  ") true none,
          (if uses.length != 0 then
             emit_uses_properties ctx stmt uses (ind2 ++ "  ")
           else ([], [])),
          (if has_attributes stmt then
             rcat [wr (ind2 ++ "# TOSCA data types do not support attributes\n"),
                   wr (ind2 ++ "# Enable attributes when converting to a node type\n"),
                   wr (ind2 ++ "# attributes:\n"),
                   emit_properties ctx stmt (ind2 ++ "  ") false none]
           else ([], [])),
          (if uses.length != 0 then
             emit_uses_attributes ctx stmt uses (ind2 ++ "  ")
           else ([], [])),
          check_substmts stmt ["case", "choice", "container", "description",
                               "if-feature", "leaf", "leaf-list", "list", "reference",
                               "uses", "when"]]

/-- Source `emit_grouping`: a wrapper around `emit_data_type` adding the
grouping's substatement check. -/
def emit_groupingF : Nat → Ctx → Stmt → String → Res
  | 0, _, _, _ => ([], ["RecursionError: maximum recursion depth exceeded"])
  | n + 1, ctx, stmt, ind =>
    rcat [emit_data_typeF n ctx stmt ind,
          check_substmts stmt ["choice", "container", "description", "grouping",
                               "leaf", "leaf-list", "list", "reference", "typedef",
                               "uses"]]

end

def emit_data_types_in_stmt (ctx : Ctx) (stmt : Stmt) (ind : String) : Res :=
  emit_data_types_in_stmtF (stmtSize stmt) ctx stmt ind

def emit_data_type (ctx : Ctx) (stmt : Stmt) (ind : String) : Res :=
  emit_data_typeF (stmtSize stmt) ctx stmt ind

def emit_augmented_type (ctx : Ctx) (stmt : Stmt) (ind : String) : Res :=
  emit_augmented_typeF (stmtSize stmt) ctx stmt ind

def emit_grouping (ctx : Ctx) (stmt : Stmt) (ind : String) : Res :=
  emit_groupingF (stmtSize stmt) ctx stmt ind

/-
The Import/Include Resolver & Emitter.  `emit_import_or_include` can raise:
when the statement has no `prefix` substatement (an `include`) but the
registry lookup recovered a namespace, the source evaluates `prefix.arg`
with `prefix = None`, raising AttributeError.  Failure is modelled with
`Except` at this layer.
-/

/-- The namespace recovered for an imported module: `ctx.get_module`
followed by `search_one("namespace")` in `emit_import_or_include`. -/
def imported_ns_name (ctx : Ctx) (name : String) : Option String :=
  match ctx.get_module name with
  | some m =>
    (match m.search_one "namespace" with
     | some ns => some ns.arg
     | none => none)
  | none => none

/-- Source `emit_import_or_include`. -/
def emit_import_or_include (ctx : Ctx) (stmt : Stmt) (ind : String) :
    Except String Res :=
  let imported_module_name := stmt.arg ++ ".yaml"
  let imported_namespace_name : Option String := imported_ns_name ctx stmt.arg
  let pfx := stmt.search_one "prefix"
  if pfx.isSome || imported_namespace_name.isSome then
    match pfx with
    | none =>
      -- The file line has already been written when the source evaluates
      -- `prefix.arg`; the exception aborts emission regardless.
      .error "AttributeError: 'NoneType' object has no attribute 'arg'"
    | some p =>
      .ok (rcat [wr (ind ++ "- file: " ++ imported_module_name ++ "\n"),
                 wr (ind ++ "  namespace_prefix: " ++ p.arg ++ "\n"),
                 (match imported_namespace_name with
                  | some nsn => wr (ind ++ "  # namespace: " ++ nsn ++ "\n")
                  | none => ([], [])),
                 check_substmts stmt ["prefix"]])
  else
    .ok (rcat [wr (ind ++ "- " ++ imported_module_name ++ "\n"),
               check_substmts stmt ["prefix"]])

/-- Source `emit_imports_and_includes`: one unified import list, with the
built-in IETF types import always emitted first. -/
def emit_imports_and_includes (ctx : Ctx) (stmt : Stmt) (ind : String) :
    Except String Res := do
  let ind2 := ind ++ "  "
  let base := rcat [wr "imports:\n",
    wr (ind2 ++ "- file: " ++ IETF_NAMESPACE ++ "\n"
      ++ ind2 ++ "  namespace_prefix: " ++ IETF_NS_PFX ++ "\n")]
  (stmt.search "import" ++ stmt.search "include").foldlM
    (fun acc im => do
      let r ← emit_import_or_include ctx im ind2
      pure (acc.1 ++ r.1, acc.2 ++ r.2))
    base

/-
The Module Emitter.
-/

/-- Source `emit_module`: document header, attribution comment, module
description, metadata, imports, and the top-level data-type section. -/
def emit_module (ctx : Ctx) (stmt : Stmt) (ind : String) : Except String Res := do
  let part1 := rcat [
    wr "tosca_definitions_version: tosca_simple_yaml_1_3\n\n",
    wr ("# This template was auto-generated by yang2tosca from the YANG module '"
      ++ stmt.arg ++ "'\n\n"),
    (match stmt.search_one "description" with
     | some d => rcat [emit_description ctx d ind, wr "\n"]
     | none => ([], [])),
    emit_metadata ctx stmt ind,
    wr "\n"]
  let imp ← emit_imports_and_includes ctx stmt ind
  let part2 := rcat [
    wr "\n",
    wr "data_types:\n\n",
    emit_data_types_in_stmt ctx stmt (ind ++ "  "),
    check_substmts stmt ["augment", "belongs-to", "contact", "container",
                         "description", "feature", "grouping", "import", "include",
                         "list", "namespace", "organization", "prefix", "reference",
                         "revision", "typedef", "uses", "yang-version"]]
  pure (part1.1 ++ imp.1 ++ part2.1, part1.2 ++ imp.2 ++ part2.2)

/-
The configuration loader (src/yang2tosca/config/config.py) and the type-map
extraction of `ToscaPlugin.setup_fmt` (src/yang2tosca/tosca.py).
-/

/-- The parsed YAML content of a configuration file: a mapping whose
`type_map` key holds the scalar type mapping. -/
abbrev ConfigData := List (String × List (String × String))

/-- Outcome of the file system interaction of `read_tosca_config`; the
three failure points of the source (open, read, YAML parse) are modelled
as alternatives of this abstract outcome. -/
inductive FileOutcome : Type where
  | openErr (e : String)
  | readErr (e : String)
  | parseErr (e : String)
  | ok (data : ConfigData)

/-- Source `read_tosca_config`: resolve the configuration file name (the
packaged default when none is given), then open, read and parse it.  Every
failure prints a message and returns None. -/
def read_tosca_config (config_file_name : Option String) (fo : FileOutcome) :
    Option ConfigData × List String :=
  let name := match config_file_name with
    | none => "yang2tosca/config.yaml"
    | some n => n
  let use_msg := "Use config file '" ++ name ++ "'"
  match fo with
  | .openErr e => (none, [use_msg, "Unable to open '" ++ name ++ "': " ++ e])
  | .readErr e => (none, [use_msg, "Unable to read '" ++ name ++ "': " ++ e])
  | .parseErr e => (none, [use_msg, "Unable to parse '" ++ name ++ "': " ++ e])
  | .ok d => (some d, [use_msg])

/-- The type-map extraction of `ToscaPlugin.setup_fmt`: subscripting a None
configuration raises TypeError and a missing `type_map` key raises
KeyError; both are caught and replaced by an empty dictionary, after which
the plug-in continues normally. -/
def setup_fmt_type_map (tosca_config : Option ConfigData) : List (String × String) :=
  match tosca_config with
  | none => []
  | some d =>
    match d.lookup "type_map" with
    | none => []
    | some tm => tm

/-- A standard context for concrete evaluations: the usual string type map,
no local prefix, no camel case, empty module registry. -/
def ctxStd : Ctx := ⟨[("string", "string")], none, false, []⟩

/-- The block/inline condition of `emit_text_string`, over the normalised
line list. -/
def block_condition (lines : List String) : Bool :=
  let norm := if lines.isEmpty then [""] else lines
  decide (norm.length > 1) || containsChar ':' (norm.headD "")
    || containsChar '\'' (norm.headD "")

/-- The guard of the metadata emitter. -/
def metadata_trigger (stmt : Stmt) : Bool :=
  (stmt.search_one "yang-version").isSome || (stmt.search_one "organization").isSome
  || (stmt.search_one "contact").isSome || (stmt.search_one "reference").isSome
  || (stmt.search "revision").length != 0 || (stmt.search "feature").length != 0
  || (stmt.search_one "namespace").isSome || (stmt.search_one "prefix").isSome

/-- An attribute-classified leaf for concrete checks. -/
def attr_leaf : Stmt :=
  Stmt.mk "leaf" "x"
    [Stmt.mk "config" "false" [] none none, Stmt.mk "type" "string" [] none none]
    none none

/-- A container whose second `uses` statement has an unresolved grouping,
plus one local leaf property. -/
def container_with_unresolved_uses : Stmt :=
  Stmt.mk "container" "c"
    [Stmt.mk "uses" "g" [] none none,
     Stmt.mk "uses" "bad" [] none none,
     Stmt.mk "leaf" "x" [Stmt.mk "type" "string" [] none none] none none]
    none none

/-- Children removed by the single-uses elision rule: containers and lists
whose only structural content is one `uses` statement. -/
def drop_single_uses (subs : List Stmt) : List Stmt :=
  subs.filter (fun s => !((s.keyword == "container" || s.keyword == "list")
    && has_single_uses_stmt_only s))

/-- A container with a single `uses` substatement and no local children. -/
def single_uses_container : Stmt :=
  Stmt.mk "container" "c" [Stmt.mk "uses" "g" [] none none] none none

/-
Infrastructure for C10: no chunk of an attribute leaf's emission is a
`required:` line.  A chunk is "good at I" when it extends the indent I with
a non-`r` character, and "anchored at I" when it extends I at all; raw
chunks (inline text) are covered by a non-space head character.
-/

/-- The chunk either extends the indent `I` with a character other than
`r`, or begins with a character other than a space. -/
def GoodAtS (I : String) (c : String) : Prop :=
  (∃ d ch rest2, c = I ++ d ∧ d.data = ch :: rest2 ∧ ch ≠ 'r')
  ∨ (∃ ch rest2, c.data = ch :: rest2 ∧ ch ≠ ' ')

/-- The chunk either extends the indent `I`, or begins with a character
other than a space. -/
def AnchoredS (I : String) (c : String) : Prop :=
  (∃ d, c = I ++ d) ∨ (∃ ch rest2, c.data = ch :: rest2 ∧ ch ≠ ' ')

/-- All chunks good at `I`. -/
def CG (I : String) (r : Res) : Prop := ∀ c ∈ r.1, GoodAtS I c

/-- All chunks anchored at `I`. -/
def CA (I : String) (r : Res) : Prop := ∀ c ∈ r.1, AnchoredS I c

/-- The normalised first line of `emit_text_string` is safe: either empty
or headed by a non-space character. -/
def HeadOk (lines0 : List String) : Prop :=
  lines0.length ≤ 1 → lines0.headD "" = ""
    ∨ ∃ ch rest, (lines0.headD "").data = ch :: rest ∧ ch ≠ ' '

def required_value (stmt : Stmt) : String :=
  match stmt.search_one "mandatory" with
  | some m => m.arg
  | none => "false"

def leafW : Stmt := .mk "leaf" "my-leaf" [] none none

/-
Theorems.
-/

@[simp] theorem rcat_nil : rcat [] = ([], []) := rfl

@[simp] theorem rcat_cons (r : Res) (rs : List Res) :
    rcat (r :: rs) = (r.1 ++ (rcat rs).1, r.2 ++ (rcat rs).2) := rfl

/-- C6 -/
theorem c6_must_escape_rule :
    (∀ s, must_escape s = true ↔
      (pyIntOk s = true ∨ pyFloatOk s = true ∨ s = "true" ∨ s = "false"
        ∨ s = "null" ∨ s = "~" ∨ timestampMatch s = true))
  ∧ must_escape "42" = true ∧ must_escape "true" = true
  ∧ must_escape "2024-01-01" = true ∧ must_escape "hello" = false := by
  refine ⟨fun s => ?_, by decide, by decide, by decide, by decide⟩
  unfold must_escape
  split_ifs with h1 h2 h3 h4 h5 <;> simp_all <;> tauto

/-- C5 -/
theorem c5_range_argument_translation :
    (emit_in_range ctxStd (Stmt.mk "range" "1..10" [] none none) "  ").1
      = ["  - in_range: [1, 10]\n"]
  ∧ (emit_in_range ctxStd (Stmt.mk "range" "5" [] none none) "  ").1
      = ["  - valid_values:\n", "    - 5\n"]
  ∧ (emit_in_range ctxStd (Stmt.mk "range" "1..10|20..30" [] none none) "  ").1
      = ["  # This is not (yet) valid TOSCA. FIX MANUALLY\n",
         "  - or:\n",
         "    - in_range: [1, 10]\n",
         "    - in_range: [20, 30]\n"]
  ∧ (∀ ctx stmt ind,
      1 < ((scanRanges stmt.arg).filter (fun p => p.2 != "")).length →
      ∃ rest, (emit_in_range ctx stmt ind).1
        = (ind ++ "# This is not (yet) valid TOSCA. FIX MANUALLY\n")
          :: (ind ++ "- or:\n") :: rest) := by
  refine ⟨by decide, by decide, by decide, fun ctx stmt ind h => ?_⟩
  unfold emit_in_range
  have hm : ((((scanRanges stmt.arg).filter (fun p => p.2 == "")).length > 0
      && ((scanRanges stmt.arg).filter (fun p => p.2 != "")).length > 0)
      || ((scanRanges stmt.arg).filter (fun p => p.2 != "")).length > 1) = true := by
    simp [h]
  simp only [hm, if_true]
  exact ⟨_, rfl⟩

/-- C5 witness -/
theorem c5_witness :
    1 < ((scanRanges "1..10|20..30").filter (fun p => p.2 != "")).length
  ∧ ∃ rest, (emit_in_range ctxStd (Stmt.mk "range" "1..10|20..30" [] none none) "  ").1
      = ("  " ++ "# This is not (yet) valid TOSCA. FIX MANUALLY\n")
        :: ("  " ++ "- or:\n") :: rest :=
  ⟨by decide,
   c5_range_argument_translation.2.2.2 ctxStd (Stmt.mk "range" "1..10|20..30" [] none none) "  "
     (by decide)⟩

/-- Chunks of a pure sequence of writes. -/
theorem rcat_map_wr {α : Type} (l : List α) (g : α → String) :
    rcat (l.map (fun x => wr (g x))) = (l.map g, []) := by
  induction l with
  | nil => rfl
  | cons x xs ih => simp [rcat, wr] at ih ⊢; simp [ih]

/-- C7 counterexample -/
theorem c7_counterexample :
    containsChar '\n' "ab\n" = true
  ∧ emit_text_string ctxStd (wrap_text "ab\n") "" = (["ab\n"], []) := by decide

/-- Closed form of `emit_text_string`'s chunk list. -/
theorem emit_text_string_spec (ctx : Ctx) (lines0 : List String) (ind : String) :
    (emit_text_string ctx lines0 ind).1
      = if block_condition lines0 then
          ">-\n" :: (if lines0.isEmpty then [""] else lines0).map
            (fun line => ind ++ "  " ++ pyLstrip line ++ "\n")
        else [(if lines0.isEmpty then [""] else lines0).headD "" ++ "\n"] := by
  unfold emit_text_string block_condition
  cases lines0 with
  | nil => rfl
  | cons l ls =>
    show (if (decide ((l :: ls).length > 1) || containsChar ':' ((l :: ls).headD "")
        || containsChar '\'' ((l :: ls).headD "")) = true then
        rcat (wr ">-\n" :: List.map (fun line => wr (ind ++ "  " ++ pyLstrip line ++ "\n")) (l :: ls))
      else wr (((l :: ls).headD "") ++ "\n")).1
      = if (decide ((l :: ls).length > 1) || containsChar ':' ((l :: ls).headD "")
        || containsChar '\'' ((l :: ls).headD "")) = true then
        ">-\n" :: List.map (fun line => ind ++ "  " ++ pyLstrip line ++ "\n") (l :: ls)
      else [(l :: ls).headD "" ++ "\n"]
    split_ifs with h
    · rw [rcat_cons, rcat_map_wr (l :: ls) (fun line => ind ++ "  " ++ pyLstrip line ++ "\n")]
      rfl
    · rfl

/-- C7 amended -/
theorem c7_block_style_decision :
    ∀ ctx t ind,
      (2 ≤ (emit_text_string ctx (wrap_text t) ind).1.length ↔
        block_condition (wrap_text t) = true)
    ∧ (block_condition (wrap_text t) = true →
        (emit_text_string ctx (wrap_text t) ind).1.head? = some ">-\n") := by
  intro ctx t ind
  rw [emit_text_string_spec ctx (wrap_text t) ind]
  by_cases h : block_condition (wrap_text t) = true
  · rw [if_pos h]
    refine ⟨⟨fun _ => h, fun _ => ?_⟩, fun _ => rfl⟩
    have h1 : 1 ≤ (if (wrap_text t).isEmpty then [""] else wrap_text t).length := by
      split_ifs with he
      · decide
      · have hne : wrap_text t ≠ [] := by simpa [List.isEmpty_iff] using he
        have := List.length_pos.mpr hne
        omega
    simp only [List.length_cons, List.length_map]
    omega
  · rw [if_neg h]
    refine ⟨⟨fun hlen => ?_, fun hc => absurd hc h⟩, fun hc => absurd hc h⟩
    simp at hlen

/-- C7 witness -/
theorem c7_block_style_decision_witness :
    (emit_text_string ctxStd (wrap_text "a:b") "").1.head? = some ">-\n" :=
  (c7_block_style_decision ctxStd "a:b" "").2 (by decide)

/-- C9 counterexample -/
theorem c9_counterexample :
    (Stmt.mk "module" "m" [Stmt.mk "belongs-to" "parent" [] none none] none none).search_one
        "belongs-to" = some (Stmt.mk "belongs-to" "parent" [] none none)
  ∧ emit_metadata ctxStd
      (Stmt.mk "module" "m" [Stmt.mk "belongs-to" "parent" [] none none] none none) "  "
      = ([], []) :=
  ⟨rfl, rfl⟩

/-- C9 amended -/
theorem c9_metadata_block :
    ∀ ctx stmt ind,
      ((emit_metadata ctx stmt ind).1 ≠ [] ↔ metadata_trigger stmt = true)
    ∧ (metadata_trigger stmt = true →
       ∀ b, stmt.search_one "belongs-to" = some b →
         (ind ++ "  " ++ "belongs-to: " ++ b.arg ++ "\n") ∈ (emit_metadata ctx stmt ind).1) := by
  intro ctx stmt ind
  by_cases h : metadata_trigger stmt = true
  · constructor
    · constructor
      · intro _; exact h
      · intro _
        unfold emit_metadata
        unfold metadata_trigger at h
        simp only [h, if_true]
        simp [rcat, wr]
    · intro _ b hb
      unfold emit_metadata
      unfold metadata_trigger at h
      simp only [h, if_true]
      simp [rcat, wr, hb, ropt, emit_belongs_to, List.mem_append]
  · constructor
    · have hemp : emit_metadata ctx stmt ind = ([], []) := by
        unfold emit_metadata
        unfold metadata_trigger at h
        simp only [Bool.not_eq_true] at h
        simp [h]
      simp [hemp, h]
    · intro hc; exact absurd hc h

/-- C9 witness -/
theorem c9_metadata_block_witness :
    metadata_trigger (Stmt.mk "module" "m"
      [Stmt.mk "organization" "org" [] none none,
       Stmt.mk "belongs-to" "parent" [] none none] none none) = true
  ∧ ("  " ++ "  " ++ "belongs-to: " ++ "parent" ++ "\n") ∈
      (emit_metadata ctxStd (Stmt.mk "module" "m"
        [Stmt.mk "organization" "org" [] none none,
         Stmt.mk "belongs-to" "parent" [] none none] none none) "  ").1 :=
  ⟨by decide,
   (c9_metadata_block ctxStd (Stmt.mk "module" "m"
      [Stmt.mk "organization" "org" [] none none,
       Stmt.mk "belongs-to" "parent" [] none none] none none) "  ").2 (by decide)
     (Stmt.mk "belongs-to" "parent" [] none none) rfl⟩

/-- C4 -/
theorem c4_is_attribute_classification :
    ∀ stmt : Stmt, (stmt.search "config").length ≤ 1 →
      ((is_attribute stmt = true ↔
         ∃ c ∈ stmt.substmts, c.keyword = "config" ∧ c.arg = "false")
       ∧ ∀ ctx ind qual,
           (is_attribute stmt = true →
              emit_leaf ctx stmt ind true qual = ([], [])
              ∧ (emit_leaf ctx stmt ind false qual).1 ≠ [])
         ∧ (is_attribute stmt = false →
              emit_leaf ctx stmt ind false qual = ([], [])
              ∧ (emit_leaf ctx stmt ind true qual).1 ≠ [])) := by
  intro stmt hlen
  constructor
  · unfold is_attribute Stmt.search_one
    cases hs : stmt.search "config" with
    | nil =>
      simp only [List.head?_nil]
      constructor
      · intro h; exact absurd h (by simp)
      · rintro ⟨c, hc, hk, ha⟩
        have : c ∈ stmt.search "config" := by
          unfold Stmt.search
          exact List.mem_filter.mpr ⟨hc, by simp [hk]⟩
        rw [hs] at this
        exact absurd this (List.not_mem_nil c)
    | cons c0 rest =>
      have hrest : rest = [] := by
        rw [hs] at hlen
        simp only [List.length_cons] at hlen
        exact List.eq_nil_of_length_eq_zero (by omega)
      subst hrest
      simp only [List.head?_cons]
      have hc0 : c0 ∈ stmt.search "config" := by rw [hs]; exact List.mem_singleton_self c0
      have hc0m := List.mem_filter.mp hc0
      constructor
      · intro h
        simp only [beq_iff_eq] at h
        exact ⟨c0, hc0m.1, by simpa using hc0m.2, h⟩
      · rintro ⟨c, hc, hk, ha⟩
        have : c ∈ stmt.search "config" := by
          unfold Stmt.search
          exact List.mem_filter.mpr ⟨hc, by simp [hk]⟩
        rw [hs] at this
        have : c = c0 := by simpa using this
        subst this
        simp [ha]
  · intro ctx ind qual
    constructor
    · intro h
      constructor
      · unfold emit_leaf
        rw [h]
        simp
      · unfold emit_leaf
        rw [h]
        simp [rcat, wr]
    · intro h
      constructor
      · unfold emit_leaf
        rw [h]
        simp
      · unfold emit_leaf
        rw [h]
        simp [rcat, wr]

/-- C4 witness -/
theorem c4_is_attribute_classification_witness :
    is_attribute attr_leaf = true
  ∧ emit_leaf ctxStd attr_leaf "  " true none = ([], [])
  ∧ (emit_leaf ctxStd attr_leaf "  " false none).1 ≠ [] := by
  have h := c4_is_attribute_classification attr_leaf (by decide)
  have h2 := (h.2 ctxStd "  " none).1 (by decide)
  exact ⟨by decide, h2.1, h2.2⟩

/-- C1 counterexample -/
theorem c1_counterexample :
    (read_tosca_config (some "missing.yaml") (FileOutcome.openErr "No such file or directory")).1
      = none
  ∧ (read_tosca_config (some "missing.yaml") (FileOutcome.openErr "No such file or directory")).2
      = ["Use config file 'missing.yaml'",
         "Unable to open 'missing.yaml': No such file or directory"]
  ∧ setup_fmt_type_map
      (read_tosca_config (some "missing.yaml")
        (FileOutcome.openErr "No such file or directory")).1 = []
  ∧ emit_module ⟨setup_fmt_type_map none, none, false, []⟩
      (Stmt.mk "module" "m" [] none none) ""
      = .ok (["tosca_definitions_version: tosca_simple_yaml_1_3\n\n",
              "# This template was auto-generated by yang2tosca from the YANG module 'm'\n\n",
              "\n",
              "imports:\n",
              "  - file: org.ietf:1.0\n    namespace_prefix: inet\n",
              "\n",
              "data_types:\n\n"], []) := by
  refine ⟨rfl, by decide, rfl, ?_⟩
  rfl

/-- C1 amended -/
theorem c1_config_failure_continues :
    (∀ name e,
       read_tosca_config (some name) (FileOutcome.openErr e)
         = (none, ["Use config file '" ++ name ++ "'",
                   "Unable to open '" ++ name ++ "': " ++ e])
     ∧ read_tosca_config (some name) (FileOutcome.readErr e)
         = (none, ["Use config file '" ++ name ++ "'",
                   "Unable to read '" ++ name ++ "': " ++ e])
     ∧ read_tosca_config (some name) (FileOutcome.parseErr e)
         = (none, ["Use config file '" ++ name ++ "'",
                   "Unable to parse '" ++ name ++ "': " ++ e]))
  ∧ setup_fmt_type_map none = []
  ∧ (∀ d : ConfigData, d.lookup "type_map" = none → setup_fmt_type_map (some d) = [])
  ∧ (emit_module ⟨[], none, false, []⟩ (Stmt.mk "module" "m" [] none none) "").isOk = true := by
  refine ⟨fun name e => ⟨rfl, rfl, rfl⟩, rfl, fun d hd => ?_, by decide⟩
  simp [setup_fmt_type_map, hd]

/-- C1 amended witness -/
theorem c1_config_failure_continues_witness :
    ([("other_key", [("a", "b")])] : ConfigData).lookup "type_map" = none
  ∧ setup_fmt_type_map (some [("other_key", [("a", "b")])]) = [] :=
  ⟨by decide,
   c1_config_failure_continues.2.2.1 [("other_key", [("a", "b")])] (by decide)⟩

/-- C2 counterexample -/
theorem c2_counterexample :
    emit_import_or_include
      ⟨[], none, false,
       [("sub", Stmt.mk "module" "sub" [Stmt.mk "namespace" "urn:sub" [] none none] none none)]⟩
      (Stmt.mk "include" "sub" [] none none) "  "
      = .error "AttributeError: 'NoneType' object has no attribute 'arg'" := rfl

/-- C2 amended -/
theorem c2_import_entry_cases :
    ∀ ctx stmt ind,
      ((emit_import_or_include ctx stmt ind).isOk = false ↔
        (stmt.search_one "prefix" = none ∧ (imported_ns_name ctx stmt.arg).isSome = true))
    ∧ (∀ p, stmt.search_one "prefix" = some p →
        (emit_import_or_include ctx stmt ind).isOk = true)
    ∧ (stmt.search_one "prefix" = none →
        imported_ns_name ctx stmt.arg = none →
        emit_import_or_include ctx stmt ind
          = .ok ([ind ++ "- " ++ (stmt.arg ++ ".yaml") ++ "\n"],
                 (check_substmts stmt ["prefix"]).2)) := by
  intro ctx stmt ind
  cases hp : stmt.search_one "prefix" with
  | some p =>
    obtain ⟨r, hr⟩ : ∃ r, emit_import_or_include ctx stmt ind = .ok r := by
      unfold emit_import_or_include
      rw [hp]
      exact ⟨_, rfl⟩
    refine ⟨?_, fun p2 _ => by rw [hr]; rfl, fun hp2 _ => Option.noConfusion hp2⟩
    rw [hr]
    constructor
    · intro hcontra; exact Bool.noConfusion hcontra
    · rintro ⟨h1, _⟩; exact Option.noConfusion h1
  | none =>
    cases hn : imported_ns_name ctx stmt.arg with
    | none =>
      have he : emit_import_or_include ctx stmt ind
          = .ok ([ind ++ "- " ++ (stmt.arg ++ ".yaml") ++ "\n"],
                 (check_substmts stmt ["prefix"]).2) := by
        unfold emit_import_or_include
        rw [hp, hn]
        simp [rcat, wr, check_substmts]
      refine ⟨?_, fun p2 hp2 => Option.noConfusion hp2, fun _ _ => he⟩
      rw [he]
      constructor
      · intro hcontra; exact Bool.noConfusion hcontra
      · rintro ⟨_, h2⟩; simp at h2
    | some nsn =>
      have he : emit_import_or_include ctx stmt ind
          = .error "AttributeError: 'NoneType' object has no attribute 'arg'" := by
        unfold emit_import_or_include
        rw [hp, hn]
        rfl
      refine ⟨?_, fun p2 hp2 => Option.noConfusion hp2, fun _ h2 => Option.noConfusion h2⟩
      rw [he]
      exact ⟨fun _ => ⟨rfl, rfl⟩, fun _ => rfl⟩

/-- C2 amended witness -/
theorem c2_import_entry_cases_witness :
    (Stmt.mk "include" "unknown" [] none none).search_one "prefix" = none
  ∧ imported_ns_name (⟨[], none, false, []⟩ : Ctx) "unknown" = none
  ∧ emit_import_or_include ⟨[], none, false, []⟩
      (Stmt.mk "include" "unknown" [] none none) "  "
      = .ok (["  " ++ "- " ++ ("unknown" ++ ".yaml") ++ "\n"],
             (check_substmts (Stmt.mk "include" "unknown" [] none none) ["prefix"]).2) :=
  ⟨rfl, rfl,
   (c2_import_entry_cases ⟨[], none, false, []⟩
     (Stmt.mk "include" "unknown" [] none none) "  ").2.2 rfl rfl⟩

/-- C8 counterexample -/
theorem c8_counterexample :
    (emit_data_type ctxStd container_with_unresolved_uses "  ").2.count
      "/c: uses(bad) not found" = 2 := by decide

/-- C8 amended -/
theorem c8_unresolved_uses :
    (∀ ctx stmt u ind prop, u.iGrouping = none →
       emit_use ctx stmt u ind prop
         = ([], [mk_path_str stmt ++ ": uses(" ++ u.arg ++ ") not found"]))
  ∧ (emit_data_type ctxStd container_with_unresolved_uses "  ").1
      = ["  c:\n", "    derived_from: g\n", "    properties:\n",
         "      x:\n", "        type: string\n", "        required: false\n"]
  ∧ (emit_data_type ctxStd container_with_unresolved_uses "  ").2
      = ["/c: uses(bad) not found", "/c: uses(bad) not found"] := by
  refine ⟨fun ctx stmt u ind prop h => ?_, by decide, by decide⟩
  unfold emit_use
  rw [h]

/-- C8 amended witness -/
theorem c8_unresolved_uses_witness :
    emit_use ctxStd container_with_unresolved_uses
      (Stmt.mk "uses" "bad" [] none none) "    " true
      = ([], ["/c: uses(bad) not found"]) := by
  rw [c8_unresolved_uses.1 ctxStd container_with_unresolved_uses
    (Stmt.mk "uses" "bad" [] none none) "    " true rfl]
  decide

theorem filter_drop_single_uses (subs : List Stmt) (kw2 : String)
    (h1 : kw2 ≠ "container") (h2 : kw2 ≠ "list") :
    (drop_single_uses subs).filter (fun s => s.keyword == kw2)
      = subs.filter (fun s => s.keyword == kw2) := by
  unfold drop_single_uses
  rw [List.filter_filter]
  apply List.filter_congr
  intro a _
  by_cases h : a.keyword = kw2
  · subst h
    simp [beq_iff_eq, h1, h2]
  · have hh : (a.keyword == kw2) = false := beq_eq_false_iff_ne.mpr h
    simp [hh]

theorem filter_drop_kept (subs : List Stmt) (kw2 : String)
    (hkw : kw2 = "container" ∨ kw2 = "list") :
    (drop_single_uses subs).filter (fun s => s.keyword == kw2)
      = (subs.filter (fun s => s.keyword == kw2)).filter
          (fun s => !has_single_uses_stmt_only s) := by
  unfold drop_single_uses
  rw [List.filter_filter, List.filter_filter]
  apply List.filter_congr
  intro a _
  by_cases h : a.keyword = kw2
  · subst h
    rcases hkw with hc | hc <;> simp [hc]
  · have hh : (a.keyword == kw2) = false := beq_eq_false_iff_ne.mpr h
    simp [hh]

theorem rcat_filter_neutral (l : List Stmt) (f : Stmt → Res) (p : Stmt → Bool)
    (h : ∀ x ∈ l, p x = false → f x = ([], [])) :
    rcat ((l.filter p).map f) = rcat (l.map f) := by
  induction l with
  | nil => rfl
  | cons x xs ih =>
    have ih2 := ih (fun y hy => h y (List.mem_cons_of_mem x hy))
    cases hp : p x with
    | true => simp only [List.filter_cons, hp, if_true, List.map_cons, rcat_cons, ih2]
    | false =>
      have hx := h x (List.mem_cons_self x xs) hp
      simp only [List.filter_cons, hp, Bool.false_eq_true, if_false, List.map_cons,
                 rcat_cons, hx, ih2]
      simp

/-- C3 -/
theorem c3_single_uses_elision :
    (∀ fuel ctx kw a subs g tgt ind,
       emit_data_types_in_stmtF fuel ctx (Stmt.mk kw a subs g tgt) ind
         = emit_data_types_in_stmtF fuel ctx (Stmt.mk kw a (drop_single_uses subs) g tgt) ind)
  ∧ (∀ ctx c ind prop qual,
       has_single_uses_stmt_only c = true → is_attribute c ≠ prop →
       (ind ++ "  " ++ "type: "
         ++ (match qual with
             | some q => q ++ ":" ++ get_single_uses_stmt_grouping ctx c
             | none => get_single_uses_stmt_grouping ctx c) ++ "\n")
         ∈ (emit_container ctx c ind prop qual).1)
  ∧ (∀ ctx c ind prop qual,
       has_single_uses_stmt_only c = true → is_attribute c ≠ prop →
       (ind ++ "  " ++ "entry_schema: "
         ++ (match qual with
             | some q => q ++ ":" ++ get_single_uses_stmt_grouping ctx c
             | none => get_single_uses_stmt_grouping ctx c) ++ "\n")
         ∈ (emit_list ctx c ind prop qual).1) := by
  refine ⟨?_, ?_, ?_⟩
  · intro fuel ctx kw a subs g tgt ind
    cases fuel with
    | zero => rfl
    | succ n =>
      unfold emit_data_types_in_stmtF
      simp only [Stmt.search, Stmt.substmts]
      rw [filter_drop_single_uses subs "typedef" (by decide) (by decide),
          filter_drop_single_uses subs "grouping" (by decide) (by decide),
          filter_drop_single_uses subs "uses" (by decide) (by decide),
          filter_drop_single_uses subs "choice" (by decide) (by decide),
          filter_drop_single_uses subs "augment" (by decide) (by decide),
          filter_drop_kept subs "container" (Or.inl rfl),
          filter_drop_kept subs "list" (Or.inr rfl)]
      rw [rcat_filter_neutral (subs.filter (fun s => s.keyword == "container"))
            (fun c => if has_single_uses_stmt_only c then ([], [])
              else rcat [emit_data_typeF n ctx c ind, wr "\n"])
            (fun s => !has_single_uses_stmt_only s)
            (fun x _ hx => by
              have hx2 : has_single_uses_stmt_only x = true := by simpa using hx
              simp [hx2])]
      rw [rcat_filter_neutral (subs.filter (fun s => s.keyword == "list"))
            (fun l => if has_single_uses_stmt_only l then ([], [])
              else rcat [emit_data_typeF n ctx l ind, wr "\n"])
            (fun s => !has_single_uses_stmt_only s)
            (fun x _ hx => by
              have hx2 : has_single_uses_stmt_only x = true := by simpa using hx
              simp [hx2])]
  · intro ctx c ind prop qual h1 h2
    unfold emit_container
    have hb : (is_attribute c == prop) = false := by
      cases hattr : is_attribute c <;> cases hprop2 : prop <;> simp_all
    simp only [hb, Bool.false_eq_true, if_false, h1, if_true]
    simp [rcat_cons, wr, List.mem_append]
  · intro ctx c ind prop qual h1 h2
    unfold emit_list
    have hb : (is_attribute c == prop) = false := by
      cases hattr : is_attribute c <;> cases hprop2 : prop <;> simp_all
    simp only [hb, Bool.false_eq_true, if_false, h1, if_true]
    simp [rcat_cons, wr, List.mem_append]

/-- C3 witness -/
theorem c3_single_uses_elision_witness :
    has_single_uses_stmt_only single_uses_container = true
  ∧ emit_data_types_in_stmtF 5 ctxStd
      (Stmt.mk "module" "m" [single_uses_container] none none) "  "
      = emit_data_types_in_stmtF 5 ctxStd (Stmt.mk "module" "m" [] none none) "  "
  ∧ ("  " ++ "  " ++ "type: " ++ get_single_uses_stmt_grouping ctxStd single_uses_container
      ++ "\n") ∈ (emit_container ctxStd single_uses_container "  " true none).1 := by
  refine ⟨by decide, ?_, ?_⟩
  · rw [c3_single_uses_elision.1 5 ctxStd "module" "m" [single_uses_container] none none "  "]
    have hd : drop_single_uses [single_uses_container] = [] := rfl
    rw [hd]
  · exact c3_single_uses_elision.2.1 ctxStd single_uses_container "  " true none
      (by decide) (by decide)

theorem goodAtS_base1 (I a : String) (ch : Char) (rest2 : List Char)
    (ha : a.data = ch :: rest2) (hr : ch ≠ 'r') : GoodAtS I (I ++ a) :=
  Or.inl ⟨a, ch, rest2, rfl, ha, hr⟩

theorem goodAtS_base2 (I c : String) (ch : Char) (rest2 : List Char)
    (hc : c.data = ch :: rest2) (hs : ch ≠ ' ') : GoodAtS I c :=
  Or.inr ⟨ch, rest2, hc, hs⟩

theorem goodAtS_ext (I c b : String) (h : GoodAtS I c) : GoodAtS I (c ++ b) := by
  rcases h with ⟨d, ch, rest2, rfl, hd, hr⟩ | ⟨ch, rest2, hc, hs⟩
  · refine Or.inl ⟨d ++ b, ch, rest2 ++ b.data, ?_, ?_, hr⟩
    · rw [String.append_assoc]
    · rw [String.data_append, hd]; rfl
  · refine Or.inr ⟨ch, rest2 ++ b.data, ?_, hs⟩
    rw [String.data_append, hc]; rfl

theorem anchoredS_base (I a : String) : AnchoredS I (I ++ a) := Or.inl ⟨a, rfl⟩

theorem anchoredS_raw (I c : String) (ch : Char) (rest2 : List Char)
    (hc : c.data = ch :: rest2) (hs : ch ≠ ' ') : AnchoredS I c :=
  Or.inr ⟨ch, rest2, hc, hs⟩

theorem anchoredS_ext (I c b : String) (h : AnchoredS I c) : AnchoredS I (c ++ b) := by
  rcases h with ⟨d, rfl⟩ | ⟨ch, rest2, hc, hs⟩
  · exact Or.inl ⟨d ++ b, by rw [String.append_assoc]⟩
  · refine Or.inr ⟨ch, rest2 ++ b.data, ?_, hs⟩
    rw [String.data_append, hc]; rfl

theorem goodAtS_of_anchored (I e c : String) (erest : List Char)
    (he : e.data = ' ' :: erest) (h : AnchoredS (I ++ e) c) : GoodAtS I c := by
  rcases h with ⟨d, rfl⟩ | ⟨ch, rest2, hc, hs⟩
  · refine Or.inl ⟨e ++ d, ' ', erest ++ d.data, by rw [String.append_assoc], ?_, by decide⟩
    rw [String.data_append, he]; rfl
  · exact Or.inr ⟨ch, rest2, hc, hs⟩

theorem anchoredS_mono (I e c : String) (h : AnchoredS (I ++ e) c) : AnchoredS I c := by
  rcases h with ⟨d, rfl⟩ | ⟨ch, rest2, hc, hs⟩
  · exact Or.inl ⟨e ++ d, by rw [String.append_assoc]⟩
  · exact Or.inr ⟨ch, rest2, hc, hs⟩

theorem goodAtS_anchored (I c : String) (h : GoodAtS I c) : AnchoredS I c := by
  rcases h with ⟨d, ch, rest2, rfl, _, _⟩ | ⟨ch, rest2, hc, hs⟩
  · exact Or.inl ⟨d, rfl⟩
  · exact Or.inr ⟨ch, rest2, hc, hs⟩

/-- Membership in the chunks of a concatenated emission. -/
theorem mem_rcat_chunks (c : String) (rs : List Res) :
    c ∈ (rcat rs).1 ↔ ∃ r ∈ rs, c ∈ r.1 := by
  induction rs with
  | nil => simp [rcat]
  | cons r rest ih => simp [rcat_cons, List.mem_append, ih]

theorem CG_rcat (I : String) (rs : List Res) (h : ∀ r ∈ rs, CG I r) :
    CG I (rcat rs) := by
  intro c hc
  obtain ⟨r, hr, hcr⟩ := (mem_rcat_chunks c rs).mp hc
  exact h r hr c hcr

theorem CA_rcat (I : String) (rs : List Res) (h : ∀ r ∈ rs, CA I r) :
    CA I (rcat rs) := by
  intro c hc
  obtain ⟨r, hr, hcr⟩ := (mem_rcat_chunks c rs).mp hc
  exact h r hr c hcr

theorem CG_wr (I x : String) (h : GoodAtS I x) : CG I (wr x) := by
  intro c hc
  simp [wr] at hc
  rwa [hc]

theorem CA_wr (I x : String) (h : AnchoredS I x) : CA I (wr x) := by
  intro c hc
  simp [wr] at hc
  rwa [hc]

theorem CG_nochunks (I : String) (m : List String) : CG I ([], m) := by
  intro c hc
  simp at hc

theorem CA_nochunks (I : String) (m : List String) : CA I ([], m) := by
  intro c hc
  simp at hc

theorem CG_ropt (I : String) (o : Option Stmt) (f : Stmt → Res)
    (h : ∀ s, o = some s → CG I (f s)) : CG I (ropt o f) := by
  cases o with
  | none => exact CG_nochunks I []
  | some s => exact h s rfl

theorem CA_ropt (I : String) (o : Option Stmt) (f : Stmt → Res)
    (h : ∀ s, o = some s → CA I (f s)) : CA I (ropt o f) := by
  cases o with
  | none => exact CA_nochunks I []
  | some s => exact h s rfl

theorem CG_of_CA_deeper (I e : String) (erest : List Char) (r : Res)
    (he : e.data = ' ' :: erest) (h : CA (I ++ e) r) : CG I r :=
  fun c hc => goodAtS_of_anchored I e c erest he (h c hc)

theorem CA_of_CA_deeper (I e : String) (r : Res) (h : CA (I ++ e) r) : CA I r :=
  fun c hc => anchoredS_mono I e c (h c hc)

theorem CA_of_CG (I : String) (r : Res) (h : CG I r) : CA I r :=
  fun c hc => goodAtS_anchored I c (h c hc)

theorem CA_ite (I : String) (b : Bool) (r1 r2 : Res)
    (h1 : CA I r1) (h2 : CA I r2) : CA I (if b then r1 else r2) := by
  cases b <;> simpa

theorem CG_ite (I : String) (b : Bool) (r1 r2 : Res)
    (h1 : CG I r1) (h2 : CG I r2) : CG I (if b then r1 else r2) := by
  cases b <;> simpa

theorem CA_iteP (I : String) (p : Prop) [Decidable p] (r1 r2 : Res)
    (h1 : CA I r1) (h2 : CA I r2) : CA I (if p then r1 else r2) := by
  split <;> assumption

theorem CG_iteP (I : String) (p : Prop) [Decidable p] (r1 r2 : Res)
    (h1 : CG I r1) (h2 : CG I r2) : CG I (if p then r1 else r2) := by
  split <;> assumption

/-
Head-character facts about the textwrap model: wrapped lines never begin
with whitespace.
-/

theorem splitWords_nonspace (cs : List Char) :
    ∀ acc, (∀ ch ∈ acc, isPySpace ch = false) →
    ∀ w ∈ splitWordsAux acc cs, w ≠ [] ∧ ∀ ch ∈ w, isPySpace ch = false := by
  induction cs with
  | nil =>
    intro acc hacc w hw
    unfold splitWordsAux at hw
    by_cases h : acc.isEmpty
    · simp [h] at hw
    · simp [h] at hw
      subst hw
      refine ⟨?_, fun ch hch => hacc ch (by simpa using hch)⟩
      simp only [ne_eq, List.reverse_eq_nil_iff]
      simpa [List.isEmpty_iff] using h
  | cons c rest ih =>
    intro acc hacc w hw
    unfold splitWordsAux at hw
    by_cases hsp : isPySpace c = true
    · rw [if_pos hsp] at hw
      by_cases h : acc.isEmpty
      · rw [if_pos h] at hw
        exact ih [] (by simp) w hw
      · rw [if_neg h] at hw
        rcases List.mem_cons.mp hw with rfl | hw2
        · refine ⟨?_, fun ch hch => hacc ch (by simpa using hch)⟩
          simp only [ne_eq, List.reverse_eq_nil_iff]
          simpa [List.isEmpty_iff] using h
        · exact ih [] (by simp) w hw2
    · rw [if_neg hsp] at hw
      refine ih (c :: acc) ?_ w hw
      intro ch hch
      rcases List.mem_cons.mp hch with rfl | hch2
      · simpa using hsp
      · exact hacc ch hch2

theorem chop_nonspace (n : Nat) (w : List Char)
    (hw : ∀ ch ∈ w, isPySpace ch = false) :
    ∀ p ∈ chopAux n w, p ≠ [] ∧ ∀ ch ∈ p, isPySpace ch = false := by
  induction n generalizing w with
  | zero =>
    intro p hp
    unfold chopAux at hp
    by_cases h : w.isEmpty
    · simp [h] at hp
    · simp [h] at hp
      subst hp
      exact ⟨by simpa [List.isEmpty_iff] using h, hw⟩
  | succ n ih =>
    intro p hp
    unfold chopAux at hp
    by_cases hlen : w.length ≤ textwrap_width
    · rw [if_pos hlen] at hp
      by_cases h : w.isEmpty
      · simp [h] at hp
      · simp [h] at hp
        subst hp
        exact ⟨by simpa [List.isEmpty_iff] using h, hw⟩
    · rw [if_neg hlen] at hp
      rcases List.mem_cons.mp hp with rfl | hp2
      · constructor
        · have : 0 < w.length := by omega
          have : (w.take textwrap_width).length = min textwrap_width w.length := by
            simp
          intro hcon
          rw [hcon] at this
          simp [textwrap_width] at this
          omega
        · intro ch hch
          exact hw ch (List.take_subset _ _ hch)
      · exact ih (w.drop textwrap_width) (fun ch hch => hw ch (List.drop_subset _ _ hch)) p hp2

theorem fill_nonspace (ws : List (List Char)) :
    ∀ cur, (∀ w ∈ ws, w ≠ [] ∧ ∀ ch ∈ w, isPySpace ch = false) →
    (cur = [] ∨ ∃ ch rest, cur = ch :: rest ∧ isPySpace ch = false) →
    ∀ l ∈ fillAux ws cur, ∃ ch rest, l = ch :: rest ∧ isPySpace ch = false := by
  induction ws with
  | nil =>
    intro cur hws hcur l hl
    unfold fillAux at hl
    rcases hcur with rfl | ⟨ch, rest, rfl, hsp⟩
    · simp at hl
    · simp at hl
      subst hl
      exact ⟨ch, rest, rfl, hsp⟩
  | cons w ws ih =>
    intro cur hws hcur l hl
    have hw := hws w (List.mem_cons_self w ws)
    have hws2 : ∀ w2 ∈ ws, w2 ≠ [] ∧ ∀ ch ∈ w2, isPySpace ch = false :=
      fun w2 hw2 => hws w2 (List.mem_cons_of_mem w hw2)
    have hwword : ∃ ch rest, w = ch :: rest ∧ isPySpace ch = false := by
      rcases hw with ⟨hne, hchars⟩
      cases w with
      | nil => exact absurd rfl hne
      | cons ch rest => exact ⟨ch, rest, rfl, hchars ch (List.mem_cons_self ch rest)⟩
    unfold fillAux at hl
    by_cases hce : cur.isEmpty
    · rw [if_pos hce] at hl
      exact ih w hws2 (Or.inr hwword) l hl
    · rw [if_neg hce] at hl
      rcases hcur with rfl | ⟨ch, rest, rfl, hsp⟩
      · simp at hce
      by_cases hfit : (ch :: rest).length + 1 + w.length ≤ textwrap_width
      · rw [if_pos hfit] at hl
        exact ih ((ch :: rest) ++ ' ' :: w) hws2
          (Or.inr ⟨ch, rest ++ ' ' :: w, rfl, hsp⟩) l hl
      · rw [if_neg hfit] at hl
        rcases List.mem_cons.mp hl with rfl | hl2
        · exact ⟨ch, rest, rfl, hsp⟩
        · exact ih w hws2 (Or.inr hwword) l hl2

theorem foldr_chop_nonspace (ws : List (List Char))
    (h : ∀ w ∈ ws, w ≠ [] ∧ ∀ ch ∈ w, isPySpace ch = false) :
    ∀ p ∈ ws.foldr (fun w acc => chop w ++ acc) [],
      p ≠ [] ∧ ∀ ch ∈ p, isPySpace ch = false := by
  induction ws with
  | nil => intro p hp; simp at hp
  | cons w ws ih =>
    intro p hp
    simp only [List.foldr_cons, List.mem_append] at hp
    rcases hp with hp | hp
    · exact chop_nonspace w.length w ((h w (List.mem_cons_self w ws)).2) p hp
    · exact ih (fun w2 hw2 => h w2 (List.mem_cons_of_mem w hw2)) p hp

theorem textwrap_wrap_nonspace (s : String) :
    ∀ l ∈ textwrap_wrap s, ∃ ch rest, l.data = ch :: rest ∧ isPySpace ch = false := by
  intro l hl
  unfold textwrap_wrap at hl
  obtain ⟨lc, hlc, rfl⟩ := List.mem_map.mp hl
  have hws := splitWords_nonspace s.data [] (by simp)
  have hpieces := foldr_chop_nonspace (splitWordsAux [] s.data) hws
  obtain ⟨ch, rest, rfl, hsp⟩ := fill_nonspace _ [] hpieces (Or.inl rfl) lc hlc
  exact ⟨ch, rest, rfl, hsp⟩

theorem wrap_head_ok (t : String) (hlen : (wrap_text t).length ≤ 1) :
    (wrap_text t).headD "" = ""
    ∨ ∃ ch rest, ((wrap_text t).headD "").data = ch :: rest ∧ ch ≠ ' ' := by
  unfold wrap_text at hlen ⊢
  by_cases hsp : (pySplitlines t).length > 1
  · rw [if_pos hsp] at hlen
    omega
  · rw [if_neg hsp] at hlen ⊢
    cases hw : textwrap_wrap t with
    | nil => left; rfl
    | cons l rest =>
      right
      obtain ⟨ch, crest, hdata, hspc⟩ := textwrap_wrap_nonspace t l (by rw [hw]; exact List.mem_cons_self l rest)
      refine ⟨ch, crest, by simpa [hw] using hdata, ?_⟩
      intro hcon
      subst hcon
      simp [isPySpace] at hspc

theorem goodAtS_key (I a : String) (ch : Char) (h : a.data.head? = some ch)
    (hr : ch ≠ 'r') : GoodAtS I (I ++ a) := by
  cases hd : a.data with
  | nil => rw [hd] at h; simp at h
  | cons c0 rest =>
    rw [hd] at h
    simp only [List.head?_cons, Option.some.injEq] at h
    subst h
    exact goodAtS_base1 I a c0 rest hd hr

theorem goodAtS_rawh (I c : String) (ch : Char) (h : c.data.head? = some ch)
    (hs : ch ≠ ' ') : GoodAtS I c := by
  cases hd : c.data with
  | nil => rw [hd] at h; simp at h
  | cons c0 rest =>
    rw [hd] at h
    simp only [List.head?_cons, Option.some.injEq] at h
    subst h
    exact goodAtS_base2 I c c0 rest hd hs

theorem anchoredS_rawh (I c : String) (ch : Char) (h : c.data.head? = some ch)
    (hs : ch ≠ ' ') : AnchoredS I c := by
  cases hd : c.data with
  | nil => rw [hd] at h; simp at h
  | cons c0 rest =>
    rw [hd] at h
    simp only [List.head?_cons, Option.some.injEq] at h
    subst h
    exact anchoredS_raw I c c0 rest hd hs

theorem headOk_wrap_text (t : String) : HeadOk (wrap_text t) := wrap_head_ok t

theorem length_le_one_of_not_block (lines0 : List String)
    (hb : ¬ block_condition lines0 = true) : lines0.length ≤ 1 := by
  by_contra hcon
  push_neg at hcon
  apply hb
  unfold block_condition
  cases lines0 with
  | nil => simp at hcon
  | cons l ls =>
    simp only [List.isEmpty_cons, Bool.false_eq_true, if_false]
    simp only [List.length_cons] at hcon
    simp
    exact Or.inl (Or.inl (by omega))

theorem norm_headD (lines0 : List String) :
    (if lines0.isEmpty then [""] else lines0).headD "" = lines0.headD "" := by
  cases lines0 <;> rfl

theorem CA_emit_text_string (ctx : Ctx) (lines0 : List String) (I : String)
    (hl : HeadOk lines0) : CA I (emit_text_string ctx lines0 I) := by
  intro c hc
  rw [emit_text_string_spec ctx lines0 I] at hc
  by_cases hb : block_condition lines0 = true
  · rw [if_pos hb] at hc
    rcases List.mem_cons.mp hc with rfl | hc2
    · exact anchoredS_rawh I _ '>' rfl (by decide)
    · obtain ⟨line, _, rfl⟩ := List.mem_map.mp hc2
      exact anchoredS_ext I _ "\n" (anchoredS_ext I _ (pyLstrip line) (anchoredS_base I "  "))
  · rw [if_neg hb] at hc
    simp only [List.mem_singleton] at hc
    subst hc
    rw [norm_headD]
    rcases hl (length_le_one_of_not_block lines0 hb) with hempty | ⟨ch, rest, hdata, hs⟩
    · rw [hempty]
      exact anchoredS_rawh I _ '\n' rfl (by decide)
    · refine anchoredS_raw I _ ch (rest ++ "\n".data) ?_ hs
      rw [String.data_append, hdata]
      rfl

theorem CG_emit_text_string (ctx : Ctx) (lines0 : List String) (I : String)
    (hl : HeadOk lines0) : CG I (emit_text_string ctx lines0 I) := by
  intro c hc
  rw [emit_text_string_spec ctx lines0 I] at hc
  by_cases hb : block_condition lines0 = true
  · rw [if_pos hb] at hc
    rcases List.mem_cons.mp hc with rfl | hc2
    · exact goodAtS_rawh I _ '>' rfl (by decide)
    · obtain ⟨line, _, rfl⟩ := List.mem_map.mp hc2
      exact goodAtS_ext I _ "\n" (goodAtS_ext I _ (pyLstrip line)
        (goodAtS_key I "  " ' ' rfl (by decide)))
  · rw [if_neg hb] at hc
    simp only [List.mem_singleton] at hc
    subst hc
    rw [norm_headD]
    rcases hl (length_le_one_of_not_block lines0 hb) with hempty | ⟨ch, rest, hdata, hs⟩
    · rw [hempty]
      exact goodAtS_rawh I _ '\n' rfl (by decide)
    · refine goodAtS_base2 I _ ch (rest ++ "\n".data) ?_ hs
      rw [String.data_append, hdata]
      rfl

theorem CA_emit_description (ctx : Ctx) (s : Stmt) (I : String) :
    CA I (emit_description ctx s I) := by
  unfold emit_description
  refine CA_rcat I _ ?_
  intro r hr
  simp only [List.mem_cons] at hr
  rcases hr with rfl | rfl | rfl | h
  · exact CA_wr I _ (anchoredS_base I "description: ")
  · exact CA_emit_text_string ctx _ I (headOk_wrap_text s.arg)
  · exact CA_nochunks I _
  · simp at h

theorem CG_emit_description (ctx : Ctx) (s : Stmt) (I : String) :
    CG I (emit_description ctx s I) := by
  unfold emit_description
  refine CG_rcat I _ ?_
  intro r hr
  simp only [List.mem_cons] at hr
  rcases hr with rfl | rfl | rfl | h
  · exact CG_wr I _ (goodAtS_key I "description: " 'd' rfl (by decide))
  · exact CG_emit_text_string ctx _ I (headOk_wrap_text s.arg)
  · exact CG_nochunks I _
  · simp at h

theorem CA_emit_yang_version (ctx : Ctx) (s : Stmt) (I : String) :
    CA I (emit_yang_version ctx s I) := by
  unfold emit_yang_version
  refine CA_rcat I _ ?_
  intro r hr
  simp only [List.mem_cons] at hr
  rcases hr with rfl | rfl | h
  · exact CA_wr I _ (anchoredS_ext I _ "\n" (anchoredS_ext I _ s.arg
      (anchoredS_base I "yang-version: ")))
  · exact CA_nochunks I _
  · simp at h

theorem CA_emit_organization (ctx : Ctx) (s : Stmt) (I : String) :
    CA I (emit_organization ctx s I) := by
  unfold emit_organization
  refine CA_rcat I _ ?_
  intro r hr
  simp only [List.mem_cons] at hr
  rcases hr with rfl | rfl | rfl | h
  · exact CA_wr I _ (anchoredS_base I "organization: ")
  · exact CA_emit_text_string ctx _ I (headOk_wrap_text s.arg)
  · exact CA_nochunks I _
  · simp at h

theorem CA_emit_contact (ctx : Ctx) (s : Stmt) (I : String) :
    CA I (emit_contact ctx s I) := by
  unfold emit_contact
  refine CA_rcat I _ ?_
  intro r hr
  simp only [List.mem_cons] at hr
  rcases hr with rfl | rfl | rfl | h
  · exact CA_wr I _ (anchoredS_base I "contact: ")
  · exact CA_emit_text_string ctx _ I (headOk_wrap_text s.arg)
  · exact CA_nochunks I _
  · simp at h

theorem CA_emit_namespace (ctx : Ctx) (s : Stmt) (I : String) :
    CA I (emit_namespace ctx s I) :=
  CA_wr I _ (anchoredS_ext I _ "\n" (anchoredS_ext I _ s.arg
    (anchoredS_base I "namespace: ")))

theorem CA_emit_prefix_stmt (ctx : Ctx) (s : Stmt) (I : String) :
    CA I (emit_prefix_stmt ctx s I) := by
  unfold emit_prefix_stmt
  refine CA_rcat I _ ?_
  intro r hr
  simp only [List.mem_cons] at hr
  rcases hr with rfl | rfl | h
  · exact CA_wr I _ (anchoredS_base I "# TOSCA does not support prefix for local namespaces\n")
  · exact CA_wr I _ (anchoredS_ext I _ "\n" (anchoredS_ext I _ s.arg
      (anchoredS_base I "prefix: ")))
  · simp at h

theorem CA_emit_belongs_to (ctx : Ctx) (s : Stmt) (I : String) :
    CA I (emit_belongs_to ctx s I) :=
  CA_wr I _ (anchoredS_ext I _ "\n" (anchoredS_ext I _ s.arg
    (anchoredS_base I "belongs-to: ")))

theorem CA_emit_reference (ctx : Ctx) (s : Stmt) (I : String) :
    CA I (emit_reference ctx s I) := by
  unfold emit_reference
  refine CA_rcat I _ ?_
  intro r hr
  simp only [List.mem_cons] at hr
  rcases hr with rfl | rfl | rfl | h
  · exact CA_wr I _ (anchoredS_base I "reference: ")
  · exact CA_emit_text_string ctx _ I (headOk_wrap_text s.arg)
  · exact CA_nochunks I _
  · simp at h

theorem CA_emit_status (ctx : Ctx) (s : Stmt) (I : String) :
    CA I (emit_status ctx s I) :=
  CA_wr I _ (anchoredS_ext I _ s.arg (anchoredS_base I "status: "))

theorem CA_emit_revision (ctx : Ctx) (s : Stmt) (I : String) :
    CA I (emit_revision ctx s I) := by
  unfold emit_revision
  refine CA_rcat I _ ?_
  intro r hr
  simp only [List.mem_cons] at hr
  rcases hr with rfl | rfl | h
  · exact CA_nochunks I _
  · refine CA_ite I _ _ _ (CA_nochunks I _) ?_
    refine CA_rcat I _ ?_
    intro r2 hr2
    simp only [List.mem_cons] at hr2
    rcases hr2 with rfl | rfl | rfl | h2
    · exact CA_wr I _ (anchoredS_ext I _ "':\n" (anchoredS_ext I _ s.arg
        (anchoredS_base I "'")))
    · exact CA_ropt I _ _ (fun d _ => CA_of_CA_deeper I "  " _
        (CA_emit_description ctx d (I ++ "  ")))
    · exact CA_ropt I _ _ (fun rf _ => CA_of_CA_deeper I "  " _
        (CA_emit_reference ctx rf (I ++ "  ")))
    · simp at h2
  · simp at h

theorem CA_emit_revisions (ctx : Ctx) (revs : List Stmt) (I : String) :
    CA I (emit_revisions ctx revs I) := by
  unfold emit_revisions
  refine CA_rcat I _ ?_
  intro r hr
  rcases List.mem_cons.mp hr with rfl | h
  · exact CA_wr I _ (anchoredS_base I "revisions:\n")
  · obtain ⟨rev, _, rfl⟩ := List.mem_map.mp h
    exact CA_of_CA_deeper I "  " _ (CA_emit_revision ctx rev (I ++ "  "))

theorem CA_emit_feature (ctx : Ctx) (s : Stmt) (I : String) :
    CA I (emit_feature ctx s I) := by
  unfold emit_feature
  refine CA_rcat I _ ?_
  intro r hr
  simp only [List.mem_cons] at hr
  rcases hr with rfl | rfl | h
  · exact CA_nochunks I _
  · refine CA_ite I _ _ _ (CA_nochunks I _) ?_
    refine CA_rcat I _ ?_
    intro r2 hr2
    simp only [List.mem_cons] at hr2
    rcases hr2 with rfl | rfl | rfl | rfl | h2
    · exact CA_wr I _ (anchoredS_ext I _ "':\n" (anchoredS_ext I _ s.arg
        (anchoredS_base I "'")))
    · exact CA_ropt I _ _ (fun d _ => CA_of_CA_deeper I "  " _
        (CA_emit_description ctx d (I ++ "  ")))
    · exact CA_ropt I _ _ (fun rf _ => CA_of_CA_deeper I "  " _
        (CA_emit_reference ctx rf (I ++ "  ")))
    · exact CA_ropt I _ _ (fun st _ => CA_of_CA_deeper I "  " _
        (CA_emit_status ctx st (I ++ "  ")))
    · simp at h2
  · simp at h

theorem CA_emit_features (ctx : Ctx) (fs : List Stmt) (I : String) :
    CA I (emit_features ctx fs I) := by
  unfold emit_features
  refine CA_rcat I _ ?_
  intro r hr
  rcases List.mem_cons.mp hr with rfl | h
  · exact CA_wr I _ (anchoredS_base I "features:\n")
  · obtain ⟨f, _, rfl⟩ := List.mem_map.mp h
    exact CA_of_CA_deeper I "  " _ (CA_emit_feature ctx f (I ++ "  "))

theorem CG_emit_metadata (ctx : Ctx) (s : Stmt) (I : String) :
    CG I (emit_metadata ctx s I) := by
  unfold emit_metadata
  refine CG_ite I _ _ _ ?_ (CG_nochunks I _)
  refine CG_rcat I _ ?_
  intro r hr
  simp only [List.mem_cons] at hr
  rcases hr with rfl | rfl | rfl | rfl | rfl | rfl | rfl | rfl | rfl | rfl | h
  · exact CG_wr I _ (goodAtS_key I "metadata:\n" 'm' rfl (by decide))
  · exact CG_ropt I _ _ (fun x _ => CG_of_CA_deeper I "  " _ _ rfl
      (CA_emit_yang_version ctx x (I ++ "  ")))
  · exact CG_ropt I _ _ (fun x _ => CG_of_CA_deeper I "  " _ _ rfl
      (CA_emit_organization ctx x (I ++ "  ")))
  · exact CG_ropt I _ _ (fun x _ => CG_of_CA_deeper I "  " _ _ rfl
      (CA_emit_contact ctx x (I ++ "  ")))
  · exact CG_ropt I _ _ (fun x _ => CG_of_CA_deeper I "  " _ _ rfl
      (CA_emit_namespace ctx x (I ++ "  ")))
  · exact CG_ropt I _ _ (fun x _ => CG_of_CA_deeper I "  " _ _ rfl
      (CA_emit_prefix_stmt ctx x (I ++ "  ")))
  · exact CG_ropt I _ _ (fun x _ => CG_of_CA_deeper I "  " _ _ rfl
      (CA_emit_belongs_to ctx x (I ++ "  ")))
  · exact CG_ite I _ _ _ (CG_of_CA_deeper I "  " _ _ rfl
      (CA_emit_revisions ctx _ (I ++ "  "))) (CG_nochunks I _)
  · exact CG_ropt I _ _ (fun x _ => CG_of_CA_deeper I "  " _ _ rfl
      (CA_emit_reference ctx x (I ++ "  ")))
  · exact CG_ite I _ _ _ (CG_of_CA_deeper I "  " _ _ rfl
      (CA_emit_features ctx _ (I ++ "  "))) (CG_nochunks I _)
  · simp at h

theorem CA_lengthClauses (lst : List (String × String)) :
    ∀ I, CA I (lengthClauses lst I) := by
  induction lst with
  | nil => intro I; exact CA_nochunks I _
  | cons p rest ih =>
    intro I
    obtain ⟨lo, hi⟩ := p
    unfold lengthClauses
    by_cases hh : (hi != "") = true
    · simp only [hh, if_true]
      by_cases hd : (lo != "min" && hi != "max") = true
      · simp only [hd, if_true]
        refine CA_rcat I _ ?_
        intro r hr
        simp only [List.mem_cons] at hr
        rcases hr with rfl | rfl | rfl | rfl | h
        · exact CA_wr I _ (anchoredS_base I "- and:\n")
        · refine CA_ite I _ _ _ ?_ (CA_nochunks I _)
          exact CA_wr I _ (anchoredS_ext I _ "\n" (anchoredS_ext I _ lo
            (anchoredS_ext I _ "- min_length: " (anchoredS_base I "  "))))
        · refine CA_ite I _ _ _ ?_ (CA_nochunks I _)
          exact CA_wr I _ (anchoredS_ext I _ "\n" (anchoredS_ext I _ hi
            (anchoredS_ext I _ "- max_length: " (anchoredS_base I "  "))))
        · exact CA_of_CA_deeper I "  " _ (ih (I ++ "  "))
        · simp at h
      · simp only [hd, Bool.false_eq_true, if_false]
        refine CA_rcat I _ ?_
        intro r hr
        simp only [List.mem_cons] at hr
        rcases hr with rfl | rfl | rfl | rfl | h
        · exact CA_nochunks I _
        · refine CA_ite I _ _ _ ?_ (CA_nochunks I _)
          exact CA_wr I _ (anchoredS_ext I _ "\n" (anchoredS_ext I _ lo
            (anchoredS_base I "- min_length: ")))
        · refine CA_ite I _ _ _ ?_ (CA_nochunks I _)
          exact CA_wr I _ (anchoredS_ext I _ "\n" (anchoredS_ext I _ hi
            (anchoredS_base I "- max_length: ")))
        · exact ih I
        · simp at h
    · simp only [hh, Bool.false_eq_true, if_false]
      refine CA_rcat I _ ?_
      intro r hr
      simp only [List.mem_cons] at hr
      rcases hr with rfl | rfl | h
      · refine CA_ite I _ _ _ ?_ (CA_nochunks I _)
        exact CA_wr I _ (anchoredS_ext I _ "\n" (anchoredS_ext I _ lo
          (anchoredS_base I "- max_length: ")))
      · exact ih I
      · simp at h

theorem CA_emit_length (ctx : Ctx) (s : Stmt) (I : String) :
    CA I (emit_length ctx s I) := by
  unfold emit_length
  refine CA_rcat I _ ?_
  intro r hr
  simp only [List.mem_cons] at hr
  rcases hr with rfl | rfl | h
  · refine CA_iteP I _ _ _ ?_ ?_
    · refine CA_rcat I _ ?_
      intro r2 hr2
      simp only [List.mem_cons] at hr2
      rcases hr2 with rfl | rfl | rfl | h2
      · exact CA_wr I _ (anchoredS_base I "# This is not (yet) valid TOSCA. FIX MANUALLY\n")
      · exact CA_wr I _ (anchoredS_base I "- or:\n")
      · exact CA_of_CA_deeper I "  " _ (CA_lengthClauses _ (I ++ "  "))
      · simp at h2
    · cases scanLengths s.arg with
      | nil => exact CA_nochunks I _
      | cons p rest =>
        obtain ⟨lo, hi⟩ := p
        by_cases hh : (hi != "") = true
        · simp only [hh, if_true]
          refine CA_rcat I _ ?_
          intro r2 hr2
          simp only [List.mem_cons] at hr2
          rcases hr2 with rfl | rfl | h2
          · refine CA_ite I _ _ _ ?_ (CA_nochunks I _)
            exact CA_wr I _ (anchoredS_ext I _ "\n" (anchoredS_ext I _ lo
              (anchoredS_base I "- min_length: ")))
          · refine CA_ite I _ _ _ ?_ (CA_nochunks I _)
            exact CA_wr I _ (anchoredS_ext I _ "\n" (anchoredS_ext I _ hi
              (anchoredS_base I "- max_length: ")))
          · simp at h2
        · simp only [hh, Bool.false_eq_true, if_false]
          refine CA_ite I _ _ _ ?_ (CA_nochunks I _)
          exact CA_wr I _ (anchoredS_ext I _ "\n" (anchoredS_ext I _ lo
            (anchoredS_base I "- max_length: ")))
  · exact CA_nochunks I _
  · simp at h

theorem CA_emit_in_range (ctx : Ctx) (s : Stmt) (I : String) :
    CA I (emit_in_range ctx s I) := by
  unfold emit_in_range
  have hind2 : ∀ r : Res, CA (if ((((scanRanges s.arg).filter (fun p => p.2 == "")).length > 0
      && ((scanRanges s.arg).filter (fun p => p.2 != "")).length > 0)
      || ((scanRanges s.arg).filter (fun p => p.2 != "")).length > 1 : Bool)
        then I ++ "  " else I) r → CA I r := by
    intro r h
    split at h
    · exact CA_of_CA_deeper I "  " _ h
    · exact h
  refine CA_rcat I _ ?_
  intro r hr
  simp only [List.mem_cons] at hr
  rcases hr with rfl | rfl | rfl | rfl | h
  · refine CA_ite I _ _ _ ?_ (CA_nochunks I _)
    refine CA_rcat I _ ?_
    intro r2 hr2
    simp only [List.mem_cons] at hr2
    rcases hr2 with rfl | rfl | h2
    · exact CA_wr I _ (anchoredS_base I "# This is not (yet) valid TOSCA. FIX MANUALLY\n")
    · exact CA_wr I _ (anchoredS_base I "- or:\n")
    · simp at h2
  · refine CA_iteP I _ _ _ ?_ (CA_nochunks I _)
    refine hind2 _ ?_
    refine CA_rcat _ _ ?_
    intro r2 hr2
    rcases List.mem_cons.mp hr2 with rfl | h2
    · exact CA_wr _ _ (anchoredS_base _ "- valid_values:\n")
    · obtain ⟨pp, _, rfl⟩ := List.mem_map.mp h2
      exact CA_wr _ _ (anchoredS_ext _ _ "\n" (anchoredS_ext _ _ pp.1
        (anchoredS_ext _ _ "- " (anchoredS_base _ "  "))))
  · refine CA_iteP I _ _ _ ?_ (CA_nochunks I _)
    refine hind2 _ ?_
    refine CA_rcat _ _ ?_
    intro r2 hr2
    obtain ⟨pp, _, rfl⟩ := List.mem_map.mp hr2
    refine CA_wr _ _ (anchoredS_ext _ _ "]\n" (anchoredS_ext _ _ _
      (anchoredS_ext _ _ ", " (anchoredS_ext _ _ _
        (anchoredS_base _ "- in_range: [")))))
  · exact CA_nochunks I _
  · simp at h

theorem CA_emit_pattern (ctx : Ctx) (s : Stmt) (I : String) :
    CA I (emit_pattern ctx s I) := by
  unfold emit_pattern
  refine CA_rcat I _ ?_
  intro r hr
  rcases List.mem_cons.mp hr with rfl | hr2
  · exact CA_wr I _ (anchoredS_ext I _ "'\n" (anchoredS_ext I _ s.arg
      (anchoredS_base I "- pattern: '")))
  · rcases List.mem_cons.mp hr2 with rfl | h2
    · exact CA_nochunks I _
    · simp at h2

theorem CA_emit_patterns (ctx : Ctx) (ss : List Stmt) (I : String) :
    CA I (emit_patterns ctx ss I) := by
  unfold emit_patterns
  refine CA_rcat I _ ?_
  intro r hr
  obtain ⟨p, _, rfl⟩ := List.mem_map.mp hr
  exact CA_emit_pattern ctx p I

theorem CA_emit_enum (ctx : Ctx) (s : Stmt) (I : String) :
    CA I (emit_enum ctx s I) := by
  unfold emit_enum
  refine CA_rcat I _ ?_
  intro r hr
  simp only [List.mem_cons] at hr
  rcases hr with rfl | rfl | rfl | h
  · cases s.search_one "value" with
    | none => exact CA_wr I _ (anchoredS_ext I _ "\n" (anchoredS_ext I _ _
        (anchoredS_base I "- ")))
    | some v => exact CA_wr I _ (anchoredS_ext I _ "\n" (anchoredS_ext I _ v.arg
        (anchoredS_ext I _ "  # Value: " (anchoredS_ext I _ _
          (anchoredS_base I "- ")))))
  · cases s.search_one "description" with
    | none => exact CA_nochunks I _
    | some d =>
      refine CA_rcat I _ ?_
      intro r2 hr2
      obtain ⟨line, _, rfl⟩ := List.mem_map.mp hr2
      exact CA_wr I _ (anchoredS_ext I _ "\n" (anchoredS_ext I _ line
        (anchoredS_base I "  # ")))
  · exact CA_nochunks I _
  · simp at h

theorem CA_emit_enums (ctx : Ctx) (ss : List Stmt) (I : String) :
    CA I (emit_enums ctx ss I) := by
  unfold emit_enums
  refine CA_rcat I _ ?_
  intro r hr
  rcases List.mem_cons.mp hr with rfl | hr2
  · exact CA_wr I _ (anchoredS_base I "- valid_values:\n")
  · obtain ⟨e, _, rfl⟩ := List.mem_map.mp hr2
    exact CA_of_CA_deeper I "  " _ (CA_emit_enum ctx e (I ++ "  "))

theorem CA_emit_bit (ctx : Ctx) (s : Stmt) (I : String) :
    CA I (emit_bit ctx s I) := by
  unfold emit_bit
  refine CA_rcat I _ ?_
  intro r hr
  simp only [List.mem_cons] at hr
  rcases hr with rfl | rfl | rfl | h
  · exact CA_wr I _ (anchoredS_ext I _ "\n" (anchoredS_ext I _ _
      (anchoredS_base I "- ")))
  · cases s.search_one "description" with
    | none => exact CA_nochunks I _
    | some d =>
      refine CA_rcat I _ ?_
      intro r2 hr2
      obtain ⟨line, _, rfl⟩ := List.mem_map.mp hr2
      exact CA_wr I _ (anchoredS_ext I _ "\n" (anchoredS_ext I _ line
        (anchoredS_base I "  # ")))
  · exact CA_nochunks I _
  · simp at h

theorem CA_emit_bits (ctx : Ctx) (ss : List Stmt) (I : String) :
    CA I (emit_bits ctx ss I) := by
  unfold emit_bits
  refine CA_rcat I _ ?_
  intro r hr
  rcases List.mem_cons.mp hr with rfl | hr2
  · exact CA_wr I _ (anchoredS_base I "- valid_values:\n")
  · obtain ⟨b, _, rfl⟩ := List.mem_map.mp hr2
    exact CA_of_CA_deeper I "  " _ (CA_emit_bit ctx b (I ++ "  "))

theorem CA_emit_min_elements (ctx : Ctx) (s : Stmt) (I : String) :
    CA I (emit_min_elements ctx s I) :=
  CA_wr I _ (anchoredS_ext I _ "\n" (anchoredS_ext I _ s.arg
    (anchoredS_base I "- min_length: ")))

theorem CA_emit_max_elements (ctx : Ctx) (s : Stmt) (I : String) :
    CA I (emit_max_elements ctx s I) :=
  CA_wr I _ (anchoredS_ext I _ "\n" (anchoredS_ext I _ s.arg
    (anchoredS_base I "- max_length: ")))

theorem CG_emit_constraints (ctx : Ctx) (s : Stmt) (I : String) :
    CG I (emit_constraints ctx s I) := by
  unfold emit_constraints
  refine CG_ite I _ _ _ ?_ (CG_nochunks I _)
  refine CG_rcat I _ ?_
  intro r hr
  simp only [List.mem_cons] at hr
  rcases hr with rfl | rfl | rfl | rfl | rfl | rfl | rfl | rfl | h
  · exact CG_wr I _ (goodAtS_key I "constraints:\n" 'c' rfl (by decide))
  · exact CG_ropt I _ _ (fun x _ => CG_of_CA_deeper I "  " _ _ rfl
      (CA_emit_length ctx x (I ++ "  ")))
  · exact CG_ropt I _ _ (fun x _ => CG_of_CA_deeper I "  " _ _ rfl
      (CA_emit_in_range ctx x (I ++ "  ")))
  · exact CG_ite I _ _ _ (CG_of_CA_deeper I "  " _ _ rfl
      (CA_emit_patterns ctx _ (I ++ "  "))) (CG_nochunks I _)
  · exact CG_ite I _ _ _ (CG_of_CA_deeper I "  " _ _ rfl
      (CA_emit_enums ctx _ (I ++ "  "))) (CG_nochunks I _)
  · exact CG_ite I _ _ _ (CG_of_CA_deeper I "  " _ _ rfl
      (CA_emit_bits ctx _ (I ++ "  "))) (CG_nochunks I _)
  · exact CG_ropt I _ _ (fun x _ => CG_of_CA_deeper I "  " _ _ rfl
      (CA_emit_min_elements ctx x (I ++ "  ")))
  · exact CG_ropt I _ _ (fun x _ => CG_of_CA_deeper I "  " _ _ rfl
      (CA_emit_max_elements ctx x (I ++ "  ")))
  · simp at h

theorem CG_emit_path (ctx : Ctx) (s : Stmt) (I : String) :
    CG I (emit_path ctx s I) :=
  CG_wr I _ (goodAtS_ext I _ "\n" (goodAtS_ext I _ s.arg
    (goodAtS_key I "# path: " '#' rfl (by decide))))

theorem CG_emit_fraction_digits (ctx : Ctx) (s : Stmt) (I : String) :
    CG I (emit_fraction_digits ctx s I) :=
  CG_wr I _ (goodAtS_ext I _ "\n" (goodAtS_ext I _ s.arg
    (goodAtS_key I "# fraction-digits: " '#' rfl (by decide))))

theorem CG_emit_typeF (fuel : Nat) (ctx : Ctx) (s : Stmt) (I : String)
    (q : Option String) : CG I (emit_typeF fuel ctx s I q) := by
  induction fuel generalizing s q with
  | zero => exact CG_nochunks I _
  | succ n ih =>
    show CG I (rcat _)
    refine CG_rcat I _ ?_
    intro r hr
    simp only [List.mem_cons] at hr
    rcases hr with rfl | rfl | h
    · refine CG_ite I _ _ _ ?_ ?_
      · refine CG_rcat I _ ?_
        intro r2 hr2
        simp only [List.mem_append, List.mem_cons, List.mem_map,
          List.not_mem_nil, or_false] at hr2
        rcases hr2 with (rfl | ⟨p, _, rfl⟩) | rfl
        · exact CG_wr I _ (goodAtS_key I
            "# The YANG type is a union. Select one of the following options:\n"
            '#' rfl (by decide))
        · refine CG_rcat I _ ?_
          intro r3 hr3
          rcases List.mem_cons.mp hr3 with rfl | hr4
          · exact CG_wr I _ (goodAtS_ext I _ "\n" (goodAtS_ext I _ _
              (goodAtS_key I "# Option " '#' rfl (by decide))))
          · rcases List.mem_cons.mp hr4 with rfl | h4
            · exact ih p.2 none
            · simp at h4
        · exact CG_wr I _ (goodAtS_key I "#\n" '#' rfl (by decide))
      · refine CG_rcat I _ ?_
        intro r2 hr2
        simp only [List.mem_cons] at hr2
        rcases hr2 with rfl | rfl | rfl | rfl | h2
        · exact CG_wr I _ (goodAtS_ext I _ "\n" (goodAtS_ext I _ _
            (goodAtS_key I "type: " 't' rfl (by decide))))
        · exact CG_ropt I _ _ (fun x _ => CG_emit_path ctx x I)
        · exact CG_ropt I _ _ (fun x _ => CG_emit_fraction_digits ctx x I)
        · exact CG_emit_constraints ctx s I
        · simp at h2
    · exact CG_nochunks I _
    · simp at h

theorem CG_emit_type (ctx : Ctx) (s : Stmt) (I : String) (q : Option String) :
    CG I (emit_type ctx s I q) := CG_emit_typeF (stmtSize s) ctx s I q

theorem CG_emit_default (ctx : Ctx) (s : Stmt) (I : String) :
    CG I (emit_default ctx s I) :=
  CG_wr I _ (goodAtS_ext I _ "\n" (goodAtS_ext I _ s.arg
    (goodAtS_key I "default: " 'd' rfl (by decide))))

theorem CG_emit_units (ctx : Ctx) (s : Stmt) (I : String) :
    CG I (emit_units ctx s I) := by
  unfold emit_units
  refine CG_rcat I _ ?_
  intro r hr
  simp only [List.mem_cons] at hr
  rcases hr with rfl | rfl | h
  · exact CG_wr I _ (goodAtS_key I "# TOSCA uses scalar unit types\n" '#' rfl (by decide))
  · exact CG_wr I _ (goodAtS_ext I _ "\n" (goodAtS_ext I _ s.arg
      (goodAtS_key I "# units: " '#' rfl (by decide))))
  · simp at h

theorem CG_emit_when (ctx : Ctx) (s : Stmt) (I : String) :
    CG I (emit_when ctx s I) :=
  CG_wr I _ (goodAtS_ext I _ "\n" (goodAtS_ext I _ s.arg
    (goodAtS_key I "# when: " '#' rfl (by decide))))

theorem CG_emit_must (ctx : Ctx) (s : Stmt) (I : String) :
    CG I (emit_must ctx s I) := by
  unfold emit_must
  refine CG_rcat I _ ?_
  intro r hr
  simp only [List.mem_cons] at hr
  rcases hr with rfl | rfl | rfl | h
  · exact CG_wr I _ (goodAtS_ext I _ "\n" (goodAtS_ext I _ s.arg
      (goodAtS_ext I _ "#   " (goodAtS_ext I _ I
        (goodAtS_key I "# must:\n" '#' rfl (by decide))))))
  · exact CG_ropt I _ _ (fun x _ => CG_wr I _ (goodAtS_ext I _ "\n"
      (goodAtS_ext I _ x.arg (goodAtS_key I "#   error-message: " '#' rfl (by decide)))))
  · exact CG_nochunks I _
  · simp at h

theorem emit_leaf_spec (ctx : Ctx) (stmt : Stmt) (ind : String) (prop : Bool)
    (qual : Option String) :
    emit_leaf ctx stmt ind prop qual =
      if is_attribute stmt == prop then ([], []) else
      rcat [wr (ind ++ prop_name ctx stmt.arg ++ ":\n"),
            ropt (stmt.search_one "description")
              (fun d => emit_description ctx d (ind ++ "  ")),
            emit_metadata ctx stmt (ind ++ "  "),
            ropt (stmt.search_one "type")
              (fun t => emit_type ctx t (ind ++ "  ") qual),
            (if !is_attribute stmt then
               emit_mandatory ctx (stmt.search_one "mandatory") (ind ++ "  ")
             else ([], [])),
            ropt (stmt.search_one "default")
              (fun d => emit_default ctx d (ind ++ "  ")),
            ropt (stmt.search_one "units")
              (fun u => emit_units ctx u (ind ++ "  ")),
            ropt (stmt.search_one "when")
              (fun w => emit_when ctx w (ind ++ "  ")),
            ropt (stmt.search_one "must")
              (fun m => emit_must ctx m (ind ++ "  ")),
            check_substmts stmt ["reference", "description", "type", "units",
              "config", "mandatory", "default", "must", "when"]] := rfl

theorem prefix_head_eq {α : Type} (a b : α) (l1 l2 : List α)
    (h : a :: l1 <+: b :: l2) : a = b := by
  obtain ⟨t, ht⟩ := h
  rw [List.cons_append] at ht
  exact (List.cons.injEq _ _ _ _ ▸ ht : _ ∧ _).1

theorem prefix_cancel {α : Type} (l a b : List α) (h : l ++ a <+: l ++ b) :
    a <+: b := by
  obtain ⟨t, ht⟩ := h
  rw [List.append_assoc] at ht
  exact ⟨t, List.append_cancel_left ht⟩

theorem data_required (ind : String) :
    ((ind ++ "  ") ++ "required: ").data
      = ind.data ++ (' ' :: ' ' :: "required: ".data) := by
  rw [String.data_append, String.data_append, List.append_assoc]
  rfl

theorem goodAt_no_required (ind c : String) (hind : ∀ ch ∈ ind.data, ch = ' ')
    (h : GoodAtS (ind ++ "  ") c) :
    ¬ (((ind ++ "  ") ++ "required: ").data <+: c.data) := by
  intro hpre
  rcases h with ⟨d, ch, rest2, rfl, hd, hr⟩ | ⟨ch, rest2, hc, hs⟩
  · rw [String.data_append, String.data_append] at hpre
    have h2 := prefix_cancel _ _ _ hpre
    rw [hd] at h2
    have h3 : 'r' :: "equired: ".data <+: ch :: rest2 := h2
    exact hr (prefix_head_eq _ _ _ _ h3).symm
  · rw [data_required ind, hc] at hpre
    cases hi : ind.data with
    | nil =>
      rw [hi, List.nil_append] at hpre
      exact hs (prefix_head_eq _ _ _ _ hpre).symm
    | cons a t =>
      rw [hi, List.cons_append] at hpre
      have h3 := prefix_head_eq _ _ _ _ hpre
      have ha : a = ' ' := hind a (by rw [hi]; exact List.mem_cons_self a t)
      exact hs (h3.symm.trans ha)

theorem name_chunk_no_required (ctx : Ctx) (stmt : Stmt) (ind : String)
    (hname : (prop_name ctx stmt.arg).data.head? ≠ some ' ') :
    ¬ (((ind ++ "  ") ++ "required: ").data
        <+: (ind ++ prop_name ctx stmt.arg ++ ":\n").data) := by
  intro hpre
  rw [data_required ind, String.data_append, String.data_append,
    List.append_assoc] at hpre
  have h2 := prefix_cancel _ _ _ hpre
  cases hn : (prop_name ctx stmt.arg).data with
  | nil =>
    rw [hn, List.nil_append] at h2
    have h3 : (' ' :: ' ' :: "required: ".data) <+: ':' :: "\n".data := h2
    exact absurd (prefix_head_eq _ _ _ _ h3) (by decide)
  | cons a t =>
    rw [hn, List.cons_append] at h2
    have h3 := prefix_head_eq _ _ _ _ h2
    rw [hn] at hname
    exact hname (by rw [List.head?_cons, ← h3])

/-- C10: a leaf not classified as an attribute, emitted in the property
pass, always contains the `required:` line at the property body
indentation, with the argument of its `mandatory` substatement as value
and `"false"` when no `mandatory` substatement is present; a leaf
classified as an attribute never produces, in either pass, a chunk in
which that `required:` line prefix appears. -/
theorem c10_required_line (ctx : Ctx) (stmt : Stmt) (ind : String)
    (qual : Option String)
    (hind : ∀ ch ∈ ind.data, ch = ' ')
    (hname : (prop_name ctx stmt.arg).data.head? ≠ some ' ') :
    (is_attribute stmt = false →
      ((ind ++ "  ") ++ "required: " ++ required_value stmt ++ "\n")
        ∈ (emit_leaf ctx stmt ind true qual).1)
    ∧ (is_attribute stmt = true → ∀ (prop : Bool),
        ∀ c ∈ (emit_leaf ctx stmt ind prop qual).1,
          ¬ (((ind ++ "  ") ++ "required: ").data <+: c.data)) := by
  constructor
  · intro hattr
    rw [emit_leaf_spec, hattr]
    rw [if_neg (by decide : ¬ ((false == true) = true))]
    refine (mem_rcat_chunks _ _).mpr ?_
    refine ⟨_, List.mem_cons_of_mem _ (List.mem_cons_of_mem _
      (List.mem_cons_of_mem _ (List.mem_cons_of_mem _
        (List.mem_cons_self _ _)))), ?_⟩
    show ((ind ++ "  ") ++ "required: " ++ required_value stmt ++ "\n")
      ∈ (if !false then
           emit_mandatory ctx (stmt.search_one "mandatory") (ind ++ "  ")
         else ([], [])).1
    exact List.mem_singleton.mpr rfl
  · intro hattr prop c hc
    rw [emit_leaf_spec, hattr] at hc
    cases prop with
    | true =>
      rw [if_pos (by decide : (true == true) = true)] at hc
      simp at hc
    | false =>
      rw [if_neg (by decide : ¬ ((true == false) = true))] at hc
      obtain ⟨r, hr, hcr⟩ := (mem_rcat_chunks c _).mp hc
      simp only [List.mem_cons] at hr
      have hropt : ∀ (o : Option Stmt) (f : Stmt → Res),
          (∀ s, CG (ind ++ "  ") (f s)) → c ∈ (ropt o f).1 →
          ¬ (((ind ++ "  ") ++ "required: ").data <+: c.data) := by
        intro o f hf hmem
        cases o with
        | none => simp [ropt] at hmem
        | some s => exact goodAt_no_required ind c hind (hf s c hmem)
      rcases hr with rfl | rfl | rfl | rfl | rfl | rfl | rfl | rfl | rfl | rfl | h
      · simp only [wr, List.mem_singleton] at hcr
        subst hcr
        exact name_chunk_no_required ctx stmt ind hname
      · exact hropt _ _ (fun s => CG_emit_description ctx s (ind ++ "  ")) hcr
      · exact goodAt_no_required ind c hind
          (CG_emit_metadata ctx stmt (ind ++ "  ") c hcr)
      · exact hropt _ _ (fun s => CG_emit_type ctx s (ind ++ "  ") qual) hcr
      · simp at hcr
      · exact hropt _ _ (fun s => CG_emit_default ctx s (ind ++ "  ")) hcr
      · exact hropt _ _ (fun s => CG_emit_units ctx s (ind ++ "  ")) hcr
      · exact hropt _ _ (fun s => CG_emit_when ctx s (ind ++ "  ")) hcr
      · exact hropt _ _ (fun s => CG_emit_must ctx s (ind ++ "  ")) hcr
      · simp [check_substmts] at hcr
      · simp at h

theorem c10_required_line_witness :
    (("  " ++ "  ") ++ "required: " ++ required_value leafW ++ "\n")
      ∈ (emit_leaf ctxStd leafW "  " true none).1 :=
  (c10_required_line ctxStd leafW "  " none (by decide) (by decide)).1 rfl
